import Mathlib

/-!
# drachtio-server: the client controller's routing tables

A shallow embedding of `ClientController` (src/client-controller.cpp): the
registration table with its round-robin offsets, the named-service table and
the id-to-client maps, together with the selection and lookup routines that
work on them.

Conventions of the embedding

* a `client_ptr` / `client_weak_ptr` is the identity of a `Client` object
  (`ClientId`); a null `client_ptr` is `none`;
* a routine that mutates the controller returns the new controller next to its
  result;
* a routine that can run into undefined behaviour (dereferencing or erasing a
  past-the-end iterator) returns `none` there and `some _` otherwise;
* `unsigned int` values are natural numbers, reduced modulo `2 ^ 32` where the
  source converts to or computes in `unsigned int`;
* a delivery handed to `m_ioservice.post` is returned as a `Posted` value;
* the SIP engine and the proxy controller are outside the controller: their
  answer is a parameter, and they do not write the controller's tables.
-/

namespace drachtio

/-- Identity of a `Client` object; all smart pointers to one client share it. -/
abbrev ClientId := Nat

/-- Wrap-around modulus of `unsigned int`. -/
def UINT : Nat := 4294967296

/-- Modelled from the spec: the typedefs `mapId2Client`, `mapDialogId2Appname`
and `map_of_request_type_offsets` are declared in client-controller.hpp, which
is not among the sources. The spec describes them as maps `id → client-ref`,
`dialog-id → app-name` and a per-verb offset: a map with unique keys, kept here
as the list of its entries. -/
abbrev Map (V : Type) := List (String × V)

namespace Map

/-- The call `m.find(k)`: the mapped value, `none` for `end()`. -/
def find {V : Type} (m : Map V) (k : String) : Option V :=
  List.lookup k m

/-- The call `m.insert(value_type(k, v))`: a key that is present keeps its value. -/
def insert {V : Type} (m : Map V) (k : String) (v : V) : Map V :=
  match find m k with
  | some _ => m
  | none => m ++ [(k, v)]

/-- The call `m.erase(k)`. -/
def erase {V : Type} (m : Map V) (k : String) : Map V :=
  List.filter (fun e => e.1 != k) m

end Map

/-- Modelled from the spec: the typedefs `map_of_request_types` and
`map_of_services` are declared in client-controller.hpp, which is not among the
sources. The spec describes entries `(verb, client-ref)` and
`(app-name, client-ref)`, several per key, selected "in registration order":
a multimap is kept as the sequence of its entries in iteration order, the
entries of one key adjacent to each other and in insertion order. -/
abbrev Multimap (V : Type) := List (String × V)

namespace Multimap

/-- Position of `equal_range(k).first` in iteration order; `size()` stands for
`end()`. -/
def first {V : Type} (t : Multimap V) (k : String) : Nat :=
  List.findIdx (fun e => e.1 == k) t

/-- The value `std::distance(pair.first, pair.second)` for `equal_range(k)`. -/
def count {V : Type} (t : Multimap V) (k : String) : Nat :=
  (List.filter (fun e => e.1 == k) t).length

/-- The call `t.insert(value_type(k, v))`: the new entry goes behind the entries
already stored under `k`; a new key starts its group at the end. -/
def insert {V : Type} (t : Multimap V) (k : String) (v : V) : Multimap V :=
  if count t k = 0 then t ++ [(k, v)]
  else List.take (first t k + count t k) t ++ (k, v) :: List.drop (first t k + count t k) t

end Multimap

/-- The members of `ClientController` that take part in routing. `pinned` is not
a member: it lists the clients kept alive by `client_ptr` copies outside
`m_clients` (bound into pending socket handlers or posted deliveries), which is
what decides, together with `m_clients`, whether a weak reference still
resolves. -/
structure ClientController where
  m_clients : List ClientId
  pinned : List ClientId
  m_services : Multimap ClientId
  m_request_types : Multimap ClientId
  m_map_of_request_type_offsets : Map Nat
  m_mapDialogs : Map ClientId
  m_mapNetTransactions : Map ClientId
  m_mapAppTransactions : Map ClientId
  m_mapApiRequests : Map ClientId
  m_mapDialogId2Appname : Map String
  deriving DecidableEq, Repr

/-- A controller right after construction: every table is empty. -/
def ClientController.empty : ClientController :=
  { m_clients := [], pinned := [], m_services := [], m_request_types := [],
    m_map_of_request_type_offsets := [], m_mapDialogs := [], m_mapNetTransactions := [],
    m_mapAppTransactions := [], m_mapApiRequests := [], m_mapDialogId2Appname := [] }

/-- Whether some `client_ptr` still owns the client. -/
def owned (s : ClientController) (c : ClientId) : Bool :=
  decide (c ∈ s.m_clients) || decide (c ∈ s.pinned)

/-- The call `weak.lock()` (also `RequestSpecifier::client()`): the client while
it is owned, null afterwards. -/
def lock (s : ClientController) (w : ClientId) : Option ClientId :=
  if owned s w then some w else none

/-- The transformation `transform(begin, end, begin, ::tolower)` on a
`std::string`. -/
def tolower (str : String) : String :=
  String.mk (List.map Char.toLower str.data)

/-- `ClientController::join`. -/
def join (s : ClientController) (client : ClientId) : ClientController :=
  { s with m_clients := if client ∈ s.m_clients then s.m_clients else s.m_clients ++ [client] }

/-- `ClientController::leave`. -/
def leave (s : ClientController) (client : ClientId) : ClientController :=
  { s with m_clients := List.filter (fun c => c != client) s.m_clients }

/-- `ClientController::addNamedService`. -/
def addNamedService (s : ClientController) (client : ClientId) (strAppName : String) :
    ClientController :=
  { s with m_services := Multimap.insert s.m_services strAppName client }

/-- `ClientController::wants_requests`: the verb is stored as it was passed in. -/
def wants_requests (s : ClientController) (client : ClientId) (verb : String) :
    Bool × ClientController :=
  let s1 := { s with m_request_types := Multimap.insert s.m_request_types verb client }
  let s2 :=
    match Map.find s1.m_map_of_request_type_offsets verb with
    | none =>
      let offsets := Map.insert s1.m_map_of_request_type_offsets verb 0
      { s1 with m_map_of_request_type_offsets := offsets }
    | some _ => s1
  (true, s2)

/-- The `do … while( !client && ++nTries < nPossibles )` loop of
`selectClientForRequestOutsideDialog`. `remaining` is `nPossibles - 1 - nTries`,
the number of further passes the loop condition still admits. `pair.first` is
recomputed from the table, which is what the source does after every erase. -/
def selectLoop (method_name : String) :
    Nat → ClientController → Nat → Option (Option ClientId × ClientController)
  | remaining, s, nOffset =>
    let it := Multimap.first s.m_request_types method_name + nOffset
    match s.m_request_types.get? it with
    | none => none
    | some spec =>
      match lock s spec.2 with
      | some client => some (some client, s)
      | none =>
        let t := List.eraseIdx s.m_request_types it
        let nOffset2 := if nOffset ≥ t.length then (t.length + (UINT - 1)) % UINT else nOffset
        let s2 := { s with m_request_types := t }
        match remaining with
        | 0 => some (none, s2)
        | r + 1 => selectLoop method_name r s2 nOffset2

/-- `ClientController::selectClientForRequestOutsideDialog`. -/
def selectClientForRequestOutsideDialog (s : ClientController) (keyword : String) :
    Option (Option ClientId × ClientController) :=
  let method_name := tolower keyword
  let nPossibles := Multimap.count s.m_request_types method_name % UINT
  if nPossibles = 0 then some (none, s)
  else
    match Map.find s.m_map_of_request_type_offsets method_name with
    | none => none
    | some i =>
      let nOffset := if i < nPossibles then i else 0
      let offsets := Map.insert (Map.erase s.m_map_of_request_type_offsets method_name)
        method_name ((nOffset + 1) % UINT)
      let s1 := { s with m_map_of_request_type_offsets := offsets }
      selectLoop method_name (nPossibles - 1) s1 nOffset

/-- The `do … while( !client && ++nTries < nPossibles )` loop of
`findClientForDialog_nolock`, probing the services registered under `appName`.
`remaining` is `nPossibles - 1 - nTries`. -/
def failoverLoop (s : ClientController) (appName : String) (nPossibles : Nat) :
    Nat → Nat → Option (Option ClientId × ClientController)
  | remaining, nOffset =>
    match s.m_services.get? (Multimap.first s.m_services appName + nOffset) with
    | none => none
    | some e =>
      match lock s e.2 with
      | some client => some (some client, s)
      | none =>
        let nOffset2 := if (nOffset + 1) % UINT = nPossibles then 0 else (nOffset + 1) % UINT
        match remaining with
        | 0 => some (none, s)
        | r + 1 => failoverLoop s appName nPossibles r nOffset2

/-- `ClientController::findClientForDialog_nolock`; `rnd` is the value `rand()`
returns. -/
def findClientForDialog_nolock (s : ClientController) (rnd : Nat) (dialogId : String) :
    Option (Option ClientId × ClientController) :=
  let client : Option ClientId :=
    match Map.find s.m_mapDialogs dialogId with
    | some w => lock s w
    | none => none
  match client with
  | some c => some (some c, s)
  | none =>
    match Map.find s.m_mapDialogId2Appname dialogId with
    | none => some (none, s)
    | some appName =>
      let nPossibles := Multimap.count s.m_services appName % UINT
      if nPossibles = 0 then some (none, s)
      else failoverLoop s appName nPossibles (nPossibles - 1) (rnd % nPossibles)

/-- `ClientController::findClientForDialog`. -/
def findClientForDialog (s : ClientController) (rnd : Nat) (dialogId : String) :
    Option (Option ClientId × ClientController) :=
  findClientForDialog_nolock s rnd dialogId

/-- `ClientController::findClientForAppTransaction`. -/
def findClientForAppTransaction (s : ClientController) (transactionId : String) :
    Option ClientId :=
  match Map.find s.m_mapAppTransactions transactionId with
  | some w => lock s w
  | none => none

/-- `ClientController::findClientForNetTransaction`. -/
def findClientForNetTransaction (s : ClientController) (transactionId : String) :
    Option ClientId :=
  match Map.find s.m_mapNetTransactions transactionId with
  | some w => lock s w
  | none => none

/-- `ClientController::findClientForApiRequest`. -/
def findClientForApiRequest (s : ClientController) (clientMsgId : String) :
    Option ClientId :=
  match Map.find s.m_mapApiRequests clientMsgId with
  | some w => lock s w
  | none => none

/-- `ClientController::removeDialog`. -/
def removeDialog (s : ClientController) (dialogId : String) : ClientController :=
  match Map.find s.m_mapDialogs dialogId with
  | none => s
  | some _ => { s with m_mapDialogs := Map.erase s.m_mapDialogs dialogId }

/-- Successive calls of `selectClientForRequestOutsideDialog` for one keyword,
nothing else touching the controller in between: the clients returned, in call
order, and the controller left behind. -/
def selectRepeatedly (keyword : String) :
    Nat → ClientController → Option (List (Option ClientId) × ClientController)
  | 0, s => some ([], s)
  | n + 1, s =>
    match selectClientForRequestOutsideDialog s keyword with
    | none => none
    | some (c, s1) =>
      match selectRepeatedly keyword n s1 with
      | none => none
      | some (cs, s2) => some (c :: cs, s2)

/-- The entries of key `k` form the block `grp` of the table, between `pre` and `post`. -/
def Multimap.GroupOf {V : Type} (t : Multimap V) (k : String) (pre grp post : List (String × V)) :
    Prop :=
  t = pre ++ grp ++ post ∧ (∀ e ∈ pre, e.1 ≠ k) ∧ (∀ e ∈ grp, e.1 = k) ∧ (∀ e ∈ post, e.1 ≠ k)

instance Multimap.GroupOf.decidable {V : Type} [DecidableEq V] (t : Multimap V) (k : String)
    (pre grp post : List (String × V)) : Decidable (Multimap.GroupOf t k pre grp post) := by
  unfold Multimap.GroupOf
  infer_instance

/-- Number of registrations stored under `verb` whose client still resolves. -/
def liveRegistrations (s : ClientController) (verb : String) : Nat :=
  (List.filter (fun e => e.1 == verb && (lock s e.2).isSome) s.m_request_types).length

/-! ## Transactions, dialogs and API requests -/

/-- A delivery handed to `m_ioservice.post`: the bound member function of
`Client`, the client it is bound to and the string arguments. The `meta`
argument, of the absent type `SipMsgData_t`, is carried as a string. -/
inductive Posted where
  | sendSipMessageToClient (client : ClientId)
      (transactionId dialogId rawSipMsg metaData : String)
  | sendApiResponseToClient (client : ClientId)
      (clientMsgId responseText additionalResponseData : String)
  deriving DecidableEq, Repr

/-- How a call that contains an `assert` ends: it returns, the assertion fails
(the process is aborted), or it runs into undefined behaviour. -/
inductive Outcome (α : Type) where
  | returned (a : α)
  | assertionFailed
  | undefinedBehaviour
  deriving DecidableEq, Repr

/-- Search of `pat` in `l` from position `i` on: the position of the first
occurrence. -/
def findFrom (pat : List Char) : List Char → Nat → Option Nat
  | [], i => if pat.isPrefixOf [] then some i else none
  | c :: t, i => if pat.isPrefixOf (c :: t) then some i else findFrom pat t (i + 1)

/-- The call `str.find(pat)` of `std::string`; `none` stands for `npos`. -/
def str_find (str pat : String) : Option Nat :=
  findFrom pat.data str.data 0

/-- `ClientController::removeAppTransaction`. -/
def removeAppTransaction (s : ClientController) (transactionId : String) : ClientController :=
  { s with m_mapAppTransactions := Map.erase s.m_mapAppTransactions transactionId }

/-- `ClientController::removeNetTransaction`. -/
def removeNetTransaction (s : ClientController) (transactionId : String) : ClientController :=
  { s with m_mapNetTransactions := Map.erase s.m_mapNetTransactions transactionId }

/-- `ClientController::removeApiRequest`. -/
def removeApiRequest (s : ClientController) (clientMsgId : String) : ClientController :=
  { s with m_mapApiRequests := Map.erase s.m_mapApiRequests clientMsgId }

/-- `ClientController::addAppTransaction`. -/
def addAppTransaction (s : ClientController) (client : ClientId) (transactionId : String) :
    ClientController :=
  { s with m_mapAppTransactions := Map.insert s.m_mapAppTransactions transactionId client }

/-- `ClientController::addNetTransaction`. -/
def addNetTransaction (s : ClientController) (client : ClientId) (transactionId : String) :
    ClientController :=
  { s with m_mapNetTransactions := Map.insert s.m_mapNetTransactions transactionId client }

/-- `ClientController::addApiRequest`. -/
def addApiRequest (s : ClientController) (client : ClientId) (clientMsgId : String) :
    ClientController :=
  { s with m_mapApiRequests := Map.insert s.m_mapApiRequests clientMsgId client }

/-- `ClientController::route_ack_request_inside_dialog`: the value returned, the
deliveries posted and the controller afterwards. -/
def route_ack_request_inside_dialog (s : ClientController) (rnd : Nat)
    (rawSipMsg metaData transactionId inviteTransactionId dialogId : String) :
    Option (Bool × List Posted × ClientController) :=
  match findClientForDialog s rnd dialogId with
  | none => none
  | some (found, s1) =>
    let client : Option ClientId :=
      match found with
      | some c => some c
      | none => findClientForNetTransaction s1 inviteTransactionId
    match client with
    | none => some (false, [], s1)
    | some c =>
      some (true, [Posted.sendSipMessageToClient c transactionId dialogId rawSipMsg metaData],
        removeNetTransaction s1 inviteTransactionId)

/-- `ClientController::route_request_inside_dialog`; `method_name` is
`sip->sip_request->rq_method_name`. -/
def route_request_inside_dialog (s : ClientController) (rnd : Nat)
    (rawSipMsg metaData method_name transactionId dialogId : String) :
    Option (Bool × List Posted × ClientController) :=
  match findClientForDialog s rnd dialogId with
  | none => none
  | some (none, s1) => some (false, [], s1)
  | some (some client, s1) =>
    let s2 := addNetTransaction s1 client transactionId
    let s3 := if method_name = "BYE" then removeDialog s2 dialogId else s2
    some (true,
      [Posted.sendSipMessageToClient client transactionId dialogId rawSipMsg metaData], s3)

/-- `ClientController::route_response_inside_transaction`; `method_name` is
`sip->sip_cseq->cs_method_name` and `st_status` is `sip->sip_status->st_status`. -/
def route_response_inside_transaction (s : ClientController)
    (rawSipMsg metaData method_name : String) (st_status : Int)
    (transactionId dialogId : String) : Bool × List Posted × ClientController :=
  match findClientForAppTransaction s transactionId with
  | none => (false, [], s)
  | some client =>
    let s1 := if st_status ≥ 200 then removeAppTransaction s transactionId else s
    let s2 := if method_name = "BYE" then removeDialog s1 dialogId else s1
    (true, [Posted.sendSipMessageToClient client transactionId dialogId rawSipMsg metaData], s2)

/-- `ClientController::route_api_response`. -/
def route_api_response (s : ClientController)
    (clientMsgId responseText additionalResponseData : String) :
    Bool × List Posted × ClientController :=
  match findClientForApiRequest s clientMsgId with
  | none => (false, [], removeApiRequest s clientMsgId)
  | some client =>
    let s1 :=
      if str_find additionalResponseData "|continue" = none then removeApiRequest s clientMsgId
      else s
    (true,
      [Posted.sendApiResponseToClient client clientMsgId responseText additionalResponseData], s1)

/-- `ClientController::addDialogForTransaction`. `ndebug` tells whether the
build defines `NDEBUG`, which turns `assert` into a no-op. Modelled from the
spec: `Client::getAppName` is declared in client.hpp, which is not among the
sources; the spec gives a client "an optional app name", passed here as
`getAppName`. -/
def addDialogForTransaction (ndebug : Bool) (getAppName : ClientId → Option String)
    (s : ClientController) (rnd : Nat) (transactionId dialogId : String) :
    Outcome ClientController :=
  let promoted : Option ClientController :=
    match Map.find s.m_mapNetTransactions transactionId with
    | some w => some { s with m_mapDialogs := Map.insert s.m_mapDialogs dialogId w }
    | none =>
      match Map.find s.m_mapDialogs dialogId with
      | some _ => some s
      | none =>
        match Map.find s.m_mapAppTransactions transactionId with
        | some w => some { s with m_mapDialogs := Map.insert s.m_mapDialogs dialogId w }
        | none => if ndebug then some s else none
  match promoted with
  | none => Outcome.assertionFailed
  | some s1 =>
    match findClientForDialog_nolock s1 rnd dialogId with
    | none => Outcome.undefinedBehaviour
    | some (none, s2) =>
      Outcome.returned { s2 with m_mapDialogs := Map.erase s2.m_mapDialogs dialogId }
    | some (some client, s2) =>
      match getAppName client with
      | some strAppName =>
        Outcome.returned { s2 with
          m_mapDialogId2Appname := Map.insert s2.m_mapDialogId2Appname dialogId strAppName }
      | none => Outcome.returned s2

/-- `ClientController::sendRequestInsideDialog`. `uuid` is what `generateUuid`
produces; `engine` is the answer of `SipDialogController::sendRequestInsideDialog`,
which is given the controller as it is when the call is made; the arguments that
are only handed on to the engine are left out. Returns `rc`, the out-parameter
`transactionId` and the controller. -/
def sendRequestInsideDialog (engine : ClientController → Bool) (uuid : String)
    (s : ClientController) (client : ClientId) (clientMsgId startLine : String) :
    Bool × String × ClientController :=
  let transactionId := uuid
  let s1 := if str_find startLine "ACK" ≠ some 0 then addAppTransaction s client transactionId
    else s
  let s2 := addApiRequest s1 client clientMsgId
  (engine s2, transactionId, s2)

/-- `ClientController::sendRequestOutsideDialog`; as `sendRequestInsideDialog`. The
SIP engine also fills in the out-parameter `dialogId`, which no table of the
controller records. -/
def sendRequestOutsideDialog (engine : ClientController → Bool) (uuid : String)
    (s : ClientController) (client : ClientId) (clientMsgId startLine : String) :
    Bool × String × ClientController :=
  let transactionId := uuid
  let s1 := if str_find startLine "ACK" ≠ some 0 then addAppTransaction s client transactionId
    else s
  let s2 := addApiRequest s1 client clientMsgId
  (engine s2, transactionId, s2)

/-- `ClientController::respondToSipRequest`; `engine` is the answer of
`SipDialogController::respondToSipRequest`. -/
def respondToSipRequest (engine : ClientController → Bool) (s : ClientController)
    (client : ClientId) (clientMsgId : String) : Bool × ClientController :=
  let s1 := addApiRequest s client clientMsgId
  (engine s1, s1)

/-- `ClientController::sendCancelRequest`; `engine` is the answer of
`SipDialogController::sendCancelRequest`. -/
def sendCancelRequest (engine : ClientController → Bool) (s : ClientController)
    (client : ClientId) (clientMsgId : String) : Bool × ClientController :=
  let s1 := addApiRequest s client clientMsgId
  (engine s1, s1)

/-- `ClientController::proxyRequest`; the value of the call into the proxy
controller is not used. -/
def proxyRequest (s : ClientController) (client : ClientId)
    (clientMsgId transactionId : String) : Bool × ClientController :=
  let s1 := addApiRequest s client clientMsgId
  (true, removeNetTransaction s1 transactionId)

/-! ## The framed control channel (client.cpp) -/

/-- Modelled from the spec: the state enumeration of a session is declared in
client.hpp, which is not among the sources; the constructors of `Client` name
`initial`, the spec lists initial, authenticated and closed. -/
inductive SessionState where
  | initial
  | authenticated
  | closed
  deriving DecidableEq, Repr

/-- The members of `Client` that the read path works on; a `char` is a `Char`.
Modelled from the spec: the type of `m_buffer` is declared in client.hpp, which
is not among the sources. The constructor passes it 12228 and the code calls
`front`, `pop_front`, `push_back`, `erase_begin` and `insert` at `end()` on it:
a ring buffer of that capacity, which gives up its oldest bytes when more is
inserted than it has room for. The spec speaks of a buffer of about 12 KiB
"grown on demand"; the two agree as long as the bytes held fit the capacity. -/
structure Client where
  m_state : SessionState
  m_buffer : List Char
  capacity : Nat
  m_nMessageLength : Nat
  deriving DecidableEq, Repr

/-- A session right after `Client::Client`. -/
def Client.fresh : Client :=
  { m_state := SessionState.initial, m_buffer := [], capacity := 12228, m_nMessageLength := 0 }

/-- The call `m_buffer.insert( m_buffer.end(), first, last )` on a ring buffer. -/
def ringInsert (capacity : Nat) (buffer data : List Char) : List Char :=
  List.drop ((buffer ++ data).length - capacity) (buffer ++ data)

/-- The decimal digits that `ostream << n` writes. -/
def decimal (n : Nat) : List Char :=
  Nat.toDigits 10 n

/-- The value `boost::lexical_cast<unsigned int>( ch.data() )` for a run of decimal
digits; `none` stands for `bad_lexical_cast`, thrown for the empty string. -/
def lexical_cast (ch : List Char) : Option Nat :=
  if ch = [] then none else some (List.foldl (fun acc c => 10 * acc + (c.toNat - 48)) 0 ch)

/-- How the `do … while` loop of `readMessageLength` ends: `front()` on an empty
buffer, the `throw` inside the loop, or the exit with the last character read,
the buffer left and the digits collected in `ch`. -/
inductive LoopExit where
  | emptyBuffer
  | invalid
  | done (c : Char) (buffer : List Char) (ch : List Char)
  deriving DecidableEq, Repr

/-- The `do … while( m_buffer.size() && i < 6 )` loop of `readMessageLength`; `i` is
the length of `ch`. -/
def readLoop : List Char → List Char → LoopExit
  | [], _ => LoopExit.emptyBuffer
  | c :: rest, ch =>
    if c = '#' then LoopExit.done c rest ch
    else if !c.isDigit then LoopExit.invalid
    else if rest ≠ [] ∧ (ch ++ [c]).length < 6 then readLoop rest (ch ++ [c])
    else LoopExit.done c rest (ch ++ [c])

/-- What a call of `readMessageLength` does: it throws `std::runtime_error`, it
throws `bad_lexical_cast`, it runs into undefined behaviour, or it returns
`continueOn` with `len` set and the buffer as left behind. -/
inductive LengthResult where
  | thrown
  | badCast
  | undefined
  | value (continueOn : Bool) (len : Nat) (buffer : List Char)
  deriving DecidableEq, Repr

/-- `Client::readMessageLength` on the buffer content. -/
def readMessageLength (buffer : List Char) : LengthResult :=
  match readLoop buffer [] with
  | LoopExit.emptyBuffer => LengthResult.undefined
  | LoopExit.invalid => LengthResult.thrown
  | LoopExit.done c rest ch =>
    if ch.length = 6 then LengthResult.thrown
    else if rest = [] then
      if c ≠ '#' then LengthResult.value false 0 ch
      else
        match lexical_cast ch with
        | none => LengthResult.badCast
        | some len => LengthResult.value false len rest
    else
      match lexical_cast ch with
      | none => LengthResult.badCast
      | some len => LengthResult.value true len rest

/-- How a call of `read_handler` ends, with the frames it handed to
`processClientMessage` and the state of the message consumer: `reading` when
the next `async_read_some` is issued, `left` when the handler called
`m_controller.leave` and returned, `escaped` when an exception left the
handler, `aborted` when a failed `assert` inside `processClientMessage` aborted
the process, `undefined` for undefined behaviour. -/
inductive ReadResult (σ : Type) where
  | reading (frames : List String) (consumer : σ) (client : Client)
  | left (frames : List String) (consumer : σ)
  | escaped (frames : List String) (consumer : σ)
  | aborted (frames : List String)
  | undefined
  deriving DecidableEq, Repr

/-- Puts frames handed over earlier in front of those of a later result. -/
def ReadResult.after {σ : Type} (earlier : List String) : ReadResult σ → ReadResult σ
  | ReadResult.reading frames st cl => ReadResult.reading (earlier ++ frames) st cl
  | ReadResult.left frames st => ReadResult.left (earlier ++ frames) st
  | ReadResult.escaped frames st => ReadResult.escaped (earlier ++ frames) st
  | ReadResult.aborted frames => ReadResult.aborted (earlier ++ frames)
  | ReadResult.undefined => ReadResult.undefined

/-- The `while( m_buffer.size() >= m_nMessageLength && m_nMessageLength > 0 )` loop
of `read_handler`. `handle` stands for `processClientMessage`: it says whether
the session goes on (a `false` return and a caught `std::runtime_error` both
end it) and gives the consumer's next state. Every pass takes at least one
byte from the buffer, which bounds the number of passes by `fuel`, the length
of the buffer at the start. -/
def processLoop {σ : Type} (handle : σ → String → Bool × σ) (this : Client) :
    Nat → σ → List Char → Nat → ReadResult σ
  | 0, st, buffer, len =>
    ReadResult.reading [] st { this with m_buffer := buffer, m_nMessageLength := len }
  | fuel + 1, st, buffer, len =>
    if buffer.length ≥ len ∧ len > 0 then
      let msg := String.mk (List.take len buffer)
      let handled := handle st msg
      if handled.1 = false then ReadResult.left [msg] handled.2
      else
        let buffer1 := List.drop len buffer
        if buffer1 ≠ [] then
          match readMessageLength buffer1 with
          | LengthResult.thrown => ReadResult.left [msg] handled.2
          | LengthResult.badCast => ReadResult.escaped [msg] handled.2
          | LengthResult.undefined => ReadResult.undefined
          | LengthResult.value continueOn len2 buffer2 =>
            if continueOn = false then
              ReadResult.reading [msg] handled.2
                { this with m_buffer := buffer2, m_nMessageLength := len2 }
            else ReadResult.after [msg] (processLoop handle this fuel handled.2 buffer2 len2)
        else
          ReadResult.reading [msg] handled.2 { this with m_buffer := [], m_nMessageLength := 0 }
    else ReadResult.reading [] st { this with m_buffer := buffer, m_nMessageLength := len }

/-- `Client::read_handler` for a read that delivered `data` (`ec` tells whether the
read failed). The response that `processClientMessage` asks to send and the
`outboundReady` notification belong to the consumer. -/
def read_handler {σ : Type} (handle : σ → String → Bool × σ) (st : σ) (this : Client)
    (ec : Bool) (data : List Char) : ReadResult σ :=
  if ec then ReadResult.left [] st
  else
    let buffer := ringInsert this.capacity this.m_buffer data
    if this.m_nMessageLength = 0 then
      match readMessageLength buffer with
      | LengthResult.thrown => ReadResult.left [] st
      | LengthResult.badCast => ReadResult.escaped [] st
      | LengthResult.undefined => ReadResult.undefined
      | LengthResult.value continueOn len buffer1 =>
        if continueOn = false then
          ReadResult.reading [] st { this with m_buffer := buffer1, m_nMessageLength := len }
        else processLoop handle this buffer1.length st buffer1 len
    else processLoop handle this buffer.length st buffer this.m_nMessageLength

/-- What follows a call of `read_handler`: when it asked for a further read, the
next step `next` runs on the consumer and session it left, and the frames of
both are put together; otherwise nothing follows. -/
def ReadResult.andThen {σ : Type} (result : ReadResult σ)
    (next : σ → Client → ReadResult σ) : ReadResult σ :=
  match result with
  | ReadResult.reading frames st this => ReadResult.after frames (next st this)
  | ReadResult.left frames st => ReadResult.left frames st
  | ReadResult.escaped frames st => ReadResult.escaped frames st
  | ReadResult.aborted frames => ReadResult.aborted frames
  | ReadResult.undefined => ReadResult.undefined

/-- Successive reads on one session, each handled by `read_handler`; once the
handler has not asked for a further read, the remaining data is not looked at. -/
def feed {σ : Type} (handle : σ → String → Bool × σ) :
    σ → Client → List (List Char) → ReadResult σ
  | st, this, [] => ReadResult.reading [] st this
  | st, this, data :: more =>
    (read_handler handle st this false data).andThen
      (fun st1 this1 => feed handle st1 this1 more)

/-- The bytes that a sequence of reads delivers, in order. -/
def received : List (List Char) → List Char
  | [] => []
  | r :: rs => r ++ received rs

/-- The frames that a call handed to the consumer. -/
def ReadResult.frames {σ : Type} : ReadResult σ → List String
  | ReadResult.reading frames _ _ => frames
  | ReadResult.left frames _ => frames
  | ReadResult.escaped frames _ => frames
  | ReadResult.aborted frames => frames
  | ReadResult.undefined => []

/-- A consumer without state that lets the session go on after every frame. -/
def acceptAll : Unit → String → Bool × Unit :=
  fun _ _ => (true, ())

/-- What `processClientMessage` uses from outside `Client` and `ClientController`.
Modelled from the spec: `splitMsg`, `splitTokens`, `generateUuid` and
`GetValueForHeader` are declared in drachtio.h, `isSecret` and `getMyHostports`
in controller.hpp and `findDialogByCallId` with the SIP engine, none of which
is among the sources. `splitMsg` gives the parts meta, start-line, headers and
body of a payload, `splitTokens` the `|`-separated tokens of the meta part;
`secret` is the process secret that `isSecret` compares with, `hostports` the
list that `getMyHostports` fills in; `generateUuid n` is the id produced by the
`n`-th call of `generateUuid` while one message is processed;
`findDialogByCallId` gives the id of the dialog found; `engine` is the answer
of the SIP engine to a command; `ndebug` tells whether `assert` is compiled
out. -/
structure Env where
  splitMsg : String → String × String × String × String
  splitTokens : String → List String
  secret : String
  hostports : List String
  generateUuid : Nat → String
  getValueForHeader : String → String → Option String
  findDialogByCallId : String → Option String
  engine : ClientController → Bool
  ndebug : Bool

/-- The call that `processClientMessage` makes into the `ClientController`. -/
inductive Command where
  | wants_requests (verb : String)
  | respondToSipRequest (clientMsgId transactionId : String)
  | sendRequestInsideDialog (clientMsgId dialogId : String)
  | sendCancelRequest (clientMsgId transactionId : String)
  | sendRequestOutsideDialog (clientMsgId : String)
  | proxyRequest (clientMsgId transactionId : String)
      (recordRoute fullResponse followRedirects simultaneous : Bool)
      (provisionalTimeout finalTimeout : String) (vecDestination : List String)
  deriving DecidableEq, Repr

/-- What a call of `processClientMessage` that returns leaves behind: the value
returned, the response to send (empty for none), the call made into the
controller and the controller afterwards. -/
structure Handled where
  bContinue : Bool
  msgResponse : String
  command : Option Command
  controller : ClientController
  deriving DecidableEq, Repr

/-- `Client::createResponseMsg` with the id `uuid` generated for it; without a
reason no `|` follows `OK` or `NO`. -/
def createResponseMsg (uuid msgId : String) (ok : Bool) (szReason : Option String) : String :=
  uuid ++ "|response|" ++ msgId ++ "|" ++ (if ok then "OK" else "NO") ++
    (match szReason with
     | some reason => "|" ++ reason
     | none => "")

/-- The `sip` branch of `processClientMessage` behind the assertion on the number
of tokens. -/
def processSipMessage (env : Env) (s : ClientController) (self : ClientId)
    (tokens : List String) (startLine headers : String) : Outcome Handled :=
  match tokens.get? 0, tokens.get? 2, tokens.get? 3 with
  | some msgId, some transactionId, some dialogId =>
    if str_find startLine "SIP/" = some 0 then
      if transactionId.length = 0 then
        Outcome.returned ⟨false,
          createResponseMsg (env.generateUuid 0) msgId false (some "transaction id missing"),
          none, s⟩
      else
        Outcome.returned ⟨true, "", some (Command.respondToSipRequest msgId transactionId),
          (respondToSipRequest env.engine s self msgId).2⟩
    else if dialogId.length > 0 then
      Outcome.returned ⟨true, "", some (Command.sendRequestInsideDialog msgId dialogId),
        (sendRequestInsideDialog env.engine (env.generateUuid 0) s self msgId startLine).2.2⟩
    else if transactionId.length > 0 then
      if str_find startLine "CANCEL" = some 0 then
        Outcome.returned ⟨true, "", some (Command.sendCancelRequest msgId transactionId),
          (sendCancelRequest env.engine s self msgId).2⟩
      else if env.ndebug then Outcome.returned ⟨true, "", none, s⟩
      else Outcome.assertionFailed
    else
      let known : Option String :=
        match env.getValueForHeader headers "Call-ID" with
        | some strCallId => env.findDialogByCallId strCallId
        | none => none
      match known with
      | some dlgId =>
        Outcome.returned ⟨true, "", some (Command.sendRequestInsideDialog msgId dlgId),
          (sendRequestInsideDialog env.engine (env.generateUuid 0) s self msgId startLine).2.2⟩
      | none =>
        Outcome.returned ⟨true, "", some (Command.sendRequestOutsideDialog msgId),
          (sendRequestOutsideDialog env.engine (env.generateUuid 0) s self msgId startLine).2.2⟩
  | _, _, _ => Outcome.undefinedBehaviour

/-- `Client::processClientMessage` for the client `self`. A token read with
`tokens[i]` beyond the end of the vector is undefined behaviour. -/
def processClientMessage (env : Env) (s : ClientController) (self : ClientId)
    (msg : String) : Outcome Handled :=
  let parts := env.splitMsg msg
  let tokens := env.splitTokens parts.1
  if tokens.length < 2 then
    match tokens.get? 0 with
    | none => Outcome.undefinedBehaviour
    | some msgId =>
      Outcome.returned ⟨false,
        createResponseMsg (env.generateUuid 0) msgId false (some "Invalid message format"),
        none, s⟩
  else
    match tokens.get? 0, tokens.get? 1 with
    | some msgId, some kind =>
      if kind = "route" then
        match tokens.get? 2 with
        | none => Outcome.undefinedBehaviour
        | some verb =>
          if (wants_requests s self verb).1 = false then
            Outcome.returned ⟨false,
              createResponseMsg (env.generateUuid 0) msgId false
                (some "Route request includes unsupported verb"),
              some (Command.wants_requests verb), (wants_requests s self verb).2⟩
          else
            Outcome.returned ⟨true, createResponseMsg (env.generateUuid 1) msgId true none,
              some (Command.wants_requests verb), (wants_requests s self verb).2⟩
      else if kind = "authenticate" then
        match tokens.get? 2 with
        | none => Outcome.undefinedBehaviour
        | some secret =>
          if secret ≠ env.secret then
            Outcome.returned ⟨false,
              createResponseMsg (env.generateUuid 0) msgId false (some "incorrect secret"),
              none, s⟩
          else
            Outcome.returned ⟨true,
              createResponseMsg (env.generateUuid 0) msgId true
                (some (String.intercalate "," env.hostports)),
              none, s⟩
      else if kind = "sip" then
        if tokens.length < 4 ∧ env.ndebug = false then Outcome.assertionFailed
        else processSipMessage env s self tokens parts.2.1 parts.2.2.1
      else if kind = "proxy" then
        if tokens.length < 4 then
          Outcome.returned ⟨false,
            createResponseMsg (env.generateUuid 0) msgId false
              (some "Invalid proxy request: not enough information provided"),
            none, s⟩
        else if tokens.length < 9 then Outcome.undefinedBehaviour
        else
          let transactionId := tokens.getD 2 ""
          Outcome.returned ⟨true, "",
            some (Command.proxyRequest msgId transactionId
              (decide (tokens.getD 3 "" = "remainInDialog"))
              (decide (tokens.getD 4 "" = "fullResponse"))
              (decide (tokens.getD 5 "" = "followRedirects"))
              (decide (tokens.getD 6 "" = "simultaneous"))
              (tokens.getD 7 "") (tokens.getD 8 "") (List.drop 9 tokens)),
            (proxyRequest s self msgId transactionId).2⟩
      else
        Outcome.returned ⟨false,
          createResponseMsg (env.generateUuid 0) msgId false (some "Unknown message type"),
          none, s⟩
    | _, _ => Outcome.undefinedBehaviour

/-- The consumer of frames of the session of client `self`:
`processClientMessage`. Its state is the controller while the process runs; a
failed assertion or undefined behaviour inside `processClientMessage` ends the
process, which the state records, and no further frame is looked at. -/
def Client.handle (env : Env) (self : ClientId) :
    Outcome ClientController → String → Bool × Outcome ClientController
  | Outcome.returned s, msg =>
    match processClientMessage env s self msg with
    | Outcome.returned handled => (handled.bContinue, Outcome.returned handled.controller)
    | Outcome.assertionFailed => (false, Outcome.assertionFailed)
    | Outcome.undefinedBehaviour => (false, Outcome.undefinedBehaviour)
  | Outcome.assertionFailed, _ => (false, Outcome.assertionFailed)
  | Outcome.undefinedBehaviour, _ => (false, Outcome.undefinedBehaviour)

/-- `Client::read_handler` of the session of client `self` with the controller it
belongs to: frames go to `processClientMessage`, and where the handler gives
the session up it calls `m_controller.leave`. A failed assertion inside
`processClientMessage` aborts the process and undefined behaviour there is
undefined behaviour of the handler: neither returns to the frame loop. -/
def Client.read_handler (env : Env) (self : ClientId) (s : ClientController) (this : Client)
    (ec : Bool) (data : List Char) : ReadResult ClientController :=
  match drachtio.read_handler (Client.handle env self) (Outcome.returned s) this ec data with
  | ReadResult.reading frames (Outcome.returned s1) this1 => ReadResult.reading frames s1 this1
  | ReadResult.left frames (Outcome.returned s1) => ReadResult.left frames (leave s1 self)
  | ReadResult.escaped frames (Outcome.returned s1) => ReadResult.escaped frames s1
  | ReadResult.reading frames Outcome.assertionFailed _ => ReadResult.aborted frames
  | ReadResult.left frames Outcome.assertionFailed => ReadResult.aborted frames
  | ReadResult.escaped frames Outcome.assertionFailed => ReadResult.aborted frames
  | ReadResult.aborted frames => ReadResult.aborted frames
  | _ => ReadResult.undefined

/-- Splits at every CRLF. -/
def splitCRLF : List Char → List (List Char)
  | [] => [[]]
  | '\r' :: '\n' :: rest => [] :: splitCRLF rest
  | c :: rest =>
    match splitCRLF rest with
    | [] => [[c]]
    | line :: lines => (c :: line) :: lines

/-- Splits at every `|`. -/
def splitBar : List Char → List (List Char)
  | [] => [[]]
  | c :: rest =>
    if c = '|' then [] :: splitBar rest
    else
      match splitBar rest with
      | [] => [[c]]
      | token :: tokens => (c :: token) :: tokens

/-- An environment for examples. Modelled from the spec: the payload has "up to
four logical parts separated by CRLF: meta, start-line, headers, body", here the
first line, the second line, the third line and the fourth line, and "meta is
further split on `|` into tokens"; the secret is `secret`, the server is at
`10.0.0.1:5060`, the n-th id generated is `uuid` followed by `n`, no dialog is
known by Call-ID, the engine answers true and assertions are compiled in. -/
def sampleEnv : Env where
  splitMsg := fun msg =>
    let lines := List.map String.mk (splitCRLF msg.data)
    (lines.getD 0 "", lines.getD 1 "", lines.getD 2 "", lines.getD 3 "")
  splitTokens := fun metaLine => List.map String.mk (splitBar metaLine.data)
  secret := "secret"
  hostports := ["10.0.0.1:5060"]
  generateUuid := fun n => "uuid" ++ toString n
  getValueForHeader := fun _ _ => none
  findDialogByCallId := fun _ => none
  engine := fun _ => true
  ndebug := false

/-! ## The event loop (client-controller.cpp) -/

/-- How `m_ioservice.run()` stands after the completed reads given to it: it waits
for more work (the `work` object keeps it from returning), an exception left
a handler and with it `run`, a failed assertion in a handler aborted the
process, or a handler ran into undefined behaviour. The sessions are those
with a read outstanding; `unhandled` are the completed reads whose handler was
not called. -/
inductive RunResult where
  | waiting (s : ClientController) (sessions : List (ClientId × Client))
  | threw (s : ClientController) (sessions : List (ClientId × Client))
      (unhandled : List (ClientId × List Char))
  | aborted
  | undefined
  deriving DecidableEq, Repr

/-- The session `self` with the members `this` in the table of sessions. -/
def setSession (sessions : List (ClientId × Client)) (self : ClientId) (this : Client) :
    List (ClientId × Client) :=
  List.map (fun e => if e.1 = self then (self, this) else e) sessions

/-- The call `m_ioservice.run()` of `threadFunc` over the completed reads `reads`,
each the client whose `async_read_some` completed and the bytes read: `run`
calls `Client::read_handler` for one after the other. A handler that issues the
next `async_read_some` keeps its session in the table, one that returns after
`leave` drops it, and an exception that leaves a handler leaves `run`. -/
def io_service_run (env : Env) :
    ClientController → List (ClientId × Client) → List (ClientId × List Char) → RunResult
  | s, sessions, [] => RunResult.waiting s sessions
  | s, sessions, (self, data) :: more =>
    match List.lookup self sessions with
    | none => io_service_run env s sessions more
    | some this =>
      match Client.read_handler env self s this false data with
      | ReadResult.reading _ s1 this1 =>
        io_service_run env s1 (setSession sessions self this1) more
      | ReadResult.left _ s1 =>
        io_service_run env s1 (List.filter (fun e => e.1 != self) sessions) more
      | ReadResult.escaped _ s1 => RunResult.threw s1 sessions more
      | ReadResult.aborted _ => RunResult.aborted
      | ReadResult.undefined => RunResult.undefined

/-- How `ClientController::threadFunc` stands: the event loop runs, the thread
function has returned and no handler is called any more, the process was
aborted, or a handler ran into undefined behaviour. -/
inductive LoopState where
  | running (s : ClientController) (sessions : List (ClientId × Client))
  | ended (s : ClientController) (sessions : List (ClientId × Client))
      (unhandled : List (ClientId × List Char))
  | aborted
  | undefined
  deriving DecidableEq, Repr

/-- `ClientController::threadFunc`: the `for(;;)` loop calls `m_ioservice.run()`
inside `try`; `catch( std::exception& e )` logs the exception and leaves the
loop with `break`. -/
def threadFunc (env : Env) (s : ClientController) (sessions : List (ClientId × Client))
    (reads : List (ClientId × List Char)) : LoopState :=
  match io_service_run env s sessions reads with
  | RunResult.waiting s1 sessions1 => LoopState.running s1 sessions1
  | RunResult.threw s1 sessions1 unhandled => LoopState.ended s1 sessions1 unhandled
  | RunResult.aborted => LoopState.aborted
  | RunResult.undefined => LoopState.undefined

/-! ## Scenario states -/

/-- Clients 1, 2 and 3 are connected; 1 and 2 registered for `invite`, 3 for
`register`. -/
def mixedVerbs : ClientController :=
  { ClientController.empty with
    m_clients := [1, 2, 3]
    m_request_types := [("invite", 1), ("invite", 2), ("register", 3)]
    m_map_of_request_type_offsets := [("invite", 0), ("register", 0)] }

/-- The state `mixedVerbs` after one INVITE has been routed (to client 1). -/
def mixedVerbsRouted : ClientController :=
  { mixedVerbs with m_map_of_request_type_offsets := [("register", 0), ("invite", 1)] }

/-- Client 1 is connected and registered for `invite` in front of two
registrations of clients that are gone; a registration for `register` of a
client that is gone follows. The stored `invite` offset is 1. -/
def staleRun : ClientController :=
  { ClientController.empty with
    m_clients := [1]
    m_request_types := [("invite", 1), ("invite", 2), ("invite", 3), ("register", 4)]
    m_map_of_request_type_offsets := [("invite", 1), ("register", 0)] }

/-- Clients 1, 2 and 3 are connected and registered for `invite`, in this order. -/
def threeInvite : ClientController :=
  { ClientController.empty with
    m_clients := [1, 2, 3]
    m_request_types := [("invite", 1), ("invite", 2), ("invite", 3)]
    m_map_of_request_type_offsets := [("invite", 0)] }

/-- The state `threeInvite` after one INVITE has been routed (to client 1). -/
def threeInviteRouted : ClientController :=
  { threeInvite with m_map_of_request_type_offsets := [("invite", 1)] }

/-- Client 1 is connected and is the only registration for `invite`. -/
def singleInvite : ClientController :=
  { ClientController.empty with
    m_clients := [1]
    m_request_types := [("invite", 1)]
    m_map_of_request_type_offsets := [("invite", 0)] }

/-- Dialog `d1` was established by client 1 running app `voicemail`; clients 1
and 2 both advertise `voicemail` and are connected. -/
def voicemailDialog : ClientController :=
  { ClientController.empty with
    m_clients := [1, 2]
    m_services := [("voicemail", 1), ("voicemail", 2)]
    m_mapDialogs := [("d1", 1)]
    m_mapDialogId2Appname := [("d1", "voicemail")] }

/-- Clients 1 and 2 are connected; dialog `d1` is bound to client 2; the network
transaction `t1` and the application transaction `t2` belong to client 1. -/
def promotedDialog : ClientController :=
  { ClientController.empty with
    m_clients := [1, 2]
    m_mapDialogs := [("d1", 2)]
    m_mapNetTransactions := [("t1", 1)]
    m_mapAppTransactions := [("t2", 1)] }

/-- Clients 1 and 2 are connected; the API request `m1` is bound to client 2. -/
def pendingApiRequest : ClientController :=
  { ClientController.empty with
    m_clients := [1, 2]
    m_mapApiRequests := [("m1", 2)] }

/-- The dialog-failover scenario before client 2 authenticates: dialog `d1` of
app `voicemail` was bound to client 1, which advertised `voicemail` and has
disconnected; client 2 is connected. -/
def failoverPending : ClientController :=
  { ClientController.empty with
    m_clients := [2]
    m_services := [("voicemail", 1)]
    m_mapDialogs := [("d1", 1)]
    m_mapDialogId2Appname := [("d1", "voicemail")] }

/-- The example environment in a build in which assertions are compiled out. -/
def sampleEnvNoAssert : Env :=
  { sampleEnv with ndebug := true }

/-- Clients 1 and 2 are connected, each with a new session that waits for its
first read. -/
def twoSessions : ClientController :=
  join (join ClientController.empty 1) 2

/-- Client 2 is connected; the network transaction `t1` belongs to client 1, which
has disconnected. -/
def orphanTransaction : ClientController :=
  { ClientController.empty with
    m_clients := [2]
    m_mapNetTransactions := [("t1", 1)] }

/-- App-names for examples: client 1 runs `voicemail`, the others have none. -/
def voicemailOfClientOne : ClientId → Option String :=
  fun c => if c = 1 then some "voicemail" else none

/-- Client 1 is connected and owns the network transaction `t1`; dialog `d1` is
bound to client 3, which has disconnected. -/
def staleBinding : ClientController :=
  { ClientController.empty with
    m_clients := [1]
    m_mapDialogs := [("d1", 3)]
    m_mapNetTransactions := [("t1", 1)] }

/-! ## Auxiliary lemmas -/

/-- A weak reference resolves only to its own client, and only while it is owned. -/
theorem lock_eq_some {s : ClientController} {w c : ClientId} (h : lock s w = some c) :
    c = w ∧ owned s c = true := by
  unfold lock at h
  split at h
  · cases h; exact ⟨rfl, by assumption⟩
  · cases h

/-- A weak reference to an owned client resolves. -/
theorem lock_of_owned {s : ClientController} {w : ClientId} (h : owned s w = true) :
    lock s w = some w := by
  simp [lock, h]

/-- The probe loop touches the registration table only, and a client it returns is
owned. -/
theorem selectLoop_frame (k : String) :
    ∀ (remaining : Nat) (s : ClientController) (nOffset : Nat) (r : Option ClientId)
      (s2 : ClientController), selectLoop k remaining s nOffset = some (r, s2) →
      s2 = { s with m_request_types := s2.m_request_types } ∧
      ∀ c, r = some c → owned s c = true := by
  intro remaining
  induction remaining with
  | zero =>
    intro s nOffset r s2 h
    unfold selectLoop at h
    simp only at h
    split at h
    · cases h
    · split at h
      · cases h
        rename_i client hl
        exact ⟨rfl, fun c hc => by cases hc; exact (lock_eq_some hl).2⟩
      · cases h
        exact ⟨rfl, fun c hc => by cases hc⟩
  | succ n ih =>
    intro s nOffset r s2 h
    unfold selectLoop at h
    simp only at h
    split at h
    · cases h
    · split at h
      · cases h
        rename_i client hl
        exact ⟨rfl, fun c hc => by cases hc; exact (lock_eq_some hl).2⟩
      · have := ih _ _ _ _ h
        obtain ⟨h1, h2⟩ := this
        refine ⟨?_, ?_⟩
        · rw [h1]
        · intro c hc
          have := h2 c hc
          simpa [owned] using this

/-- An erased key is not found. -/
theorem Map.find_erase_self {V : Type} (m : Map V) (k : String) :
    Map.find (Map.erase m k) k = none := by
  unfold Map.find Map.erase
  induction m with
  | nil => rfl
  | cons e m ih =>
    obtain ⟨a, b⟩ := e
    by_cases hk : a = k
    · have h1 : (a != k) = false := by simp [hk]
      simp only [List.filter_cons, h1]
      exact ih
    · have h1 : (a != k) = true := by simp [hk]
      have h2 : (k == a) = false := by
        simp only [beq_eq_false_iff_ne, ne_eq]
        exact fun h => hk h.symm
      simp only [List.filter_cons, h1, if_true, List.lookup_cons, h2]
      exact ih

/-- A binding appended for a key that was not bound is found. -/
theorem Map.find_append_of_none {V : Type} (m : Map V) (k : String) (v : V)
    (h : Map.find m k = none) : Map.find (m ++ [(k, v)]) k = some v := by
  unfold Map.find at h ⊢
  induction m with
  | nil => simp [List.lookup]
  | cons e m ih =>
    obtain ⟨a, b⟩ := e
    simp only [List.cons_append, List.lookup_cons] at h ⊢
    cases hab : (k == a) with
    | true => rw [hab] at h; cases h
    | false =>
      rw [hab] at h
      exact ih h

/-- Erasing a key and inserting it again binds it to the inserted value. -/
theorem Map.find_insert_erase {V : Type} (m : Map V) (k : String) (v : V) :
    Map.find (Map.insert (Map.erase m k) k v) k = some v := by
  have h := Map.find_erase_self m k
  unfold Map.insert
  rw [h]
  exact Map.find_append_of_none _ k v h

/-- The range of a key is as long as its block. -/
theorem Multimap.count_of_group {V : Type} {t : Multimap V} {k : String}
    {pre grp post : List (String × V)} (h : Multimap.GroupOf t k pre grp post) :
    Multimap.count t k = grp.length := by
  obtain ⟨ht, hpre, hgrp, hpost⟩ := h
  subst ht
  unfold Multimap.count
  have h1 : List.filter (fun e => e.1 == k) pre = [] := by
    rw [List.filter_eq_nil_iff]
    intro e he
    simpa using hpre e he
  have h2 : List.filter (fun e => e.1 == k) post = [] := by
    rw [List.filter_eq_nil_iff]
    intro e he
    simpa using hpost e he
  have h3 : List.filter (fun e => e.1 == k) grp = grp := by
    rw [List.filter_eq_self]
    intro e he
    simpa using hgrp e he
  simp [List.filter_append, h1, h2, h3]

/-- Advancing `i` steps from the start of a key's range reaches entry `i` of its
block. -/
theorem Multimap.get_of_group {V : Type} {t : Multimap V} {k : String}
    {pre grp post : List (String × V)} (h : Multimap.GroupOf t k pre grp post)
    {i : Nat} (hi : i < grp.length) :
    t.get? (Multimap.first t k + i) = grp.get? i := by
  obtain ⟨ht, hpre, hgrp, hpost⟩ := h
  subst ht
  have hf : Multimap.first (pre ++ grp ++ post) k = pre.length := by
    unfold Multimap.first
    clear hpost
    induction pre with
    | nil =>
      cases grp with
      | nil => simp at hi
      | cons g grp =>
        have := hgrp g (List.mem_cons_self _ _)
        simp [List.findIdx_cons, this]
    | cons p pre ih =>
      have hp : (p.1 == k) = false := by simpa using hpre p (List.mem_cons_self _ _)
      have := ih (fun e he => hpre e (List.mem_cons_of_mem _ he))
      simp only [List.cons_append, List.findIdx_cons, hp, cond_false, List.length_cons]
      simp only [List.append_assoc] at this ⊢
      omega
  rw [hf]
  simp only [List.get?_eq_getElem?]
  rw [List.append_assoc, List.getElem?_append_right (by omega)]
  simp only [Nat.add_sub_cancel_left]
  rw [List.getElem?_append_left hi]

/-- One selection when every registration of the verb is live: the client at the
(reset) stored offset is returned, the stored offset becomes that offset plus
one, and nothing else changes. -/
theorem select_live_step (s : ClientController) (keyword : String)
    (pre grp post : List (String × ClientId)) (o : Nat)
    (hgroup : Multimap.GroupOf s.m_request_types (tolower keyword) pre grp post)
    (hn : 0 < grp.length) (hsz : grp.length < UINT)
    (hlive : ∀ e ∈ grp, owned s e.2 = true)
    (hoff : Map.find s.m_map_of_request_type_offsets (tolower keyword) = some o) :
    selectClientForRequestOutsideDialog s keyword =
      some (Option.map Prod.snd (grp.get? (if o < grp.length then o else 0)),
        { s with
          m_map_of_request_type_offsets :=
            Map.insert (Map.erase s.m_map_of_request_type_offsets (tolower keyword))
              (tolower keyword) ((if o < grp.length then o else 0) + 1) }) := by
  have hcount := Multimap.count_of_group hgroup
  have hmod : grp.length % UINT = grp.length := Nat.mod_eq_of_lt hsz
  have ho : (if o < grp.length then o else 0) < grp.length := by split <;> omega
  have hmod2 : ((if o < grp.length then o else 0) + 1) % UINT
      = (if o < grp.length then o else 0) + 1 := Nat.mod_eq_of_lt (by omega)
  unfold selectClientForRequestOutsideDialog
  simp only [hcount, hmod, hoff, hmod2]
  rw [if_neg (by omega)]
  generalize (if o < grp.length then o else 0) = o2 at ho ⊢
  unfold selectLoop
  simp only
  rw [Multimap.get_of_group hgroup ho]
  have hget : grp.get? o2 = some (grp.get ⟨o2, ho⟩) := List.get?_eq_get ho
  rw [hget]
  have hl := hlive _ (List.get_mem grp o2 ho)
  have hl2 : ∀ m, lock { s with m_map_of_request_type_offsets := m } (grp.get ⟨o2, ho⟩).2
      = some (grp.get ⟨o2, ho⟩).2 :=
    fun m => lock_of_owned (by simpa [owned] using hl)
  simp only [hl2, Option.map_some']

/-! ## Round-robin selection -/

/-- C1, evaluated on the code: clients 1 and 2 register for `invite`, client 3
for `register`; the first INVITE goes to client 1; client 2 disconnects; the
next INVITE is handed to client 3, which never registered for `invite`, while
client 1 is live and registered. In the state `staleRun` the call returns no
client although client 1 is live and registered for `invite`. Both come from
the probe offset being compared with the size of the whole registration table
after a dead entry has been erased. -/
theorem select_leaves_verb_range :
    (wants_requests (wants_requests (wants_requests
        (join (join (join ClientController.empty 1) 2) 3) 1 "invite").2 2 "invite").2
        3 "register").2 = mixedVerbs ∧
    selectClientForRequestOutsideDialog mixedVerbs "INVITE" = some (some 1, mixedVerbsRouted) ∧
    Option.map Prod.fst (selectClientForRequestOutsideDialog (leave mixedVerbsRouted 2) "INVITE")
      = some (some 3) ∧
    ("invite", 3) ∉ (leave mixedVerbsRouted 2).m_request_types ∧
    Option.map Prod.fst (selectClientForRequestOutsideDialog staleRun "INVITE") = some none ∧
    ("invite", 1) ∈ staleRun.m_request_types ∧ lock staleRun 1 = some 1 := by
  decide

/-- C2, evaluated on the code: clients 1, 2 and 3 register for `invite`; the
first INVITE goes to client 1; client 3 disconnects, which leaves two live
registrations (1 and 2) and the stored offset 1. The next two calls both return
client 2; client 1 is not returned. -/
theorem select_repeats_client_after_stale_tail :
    (wants_requests (wants_requests (wants_requests
        (join (join (join ClientController.empty 1) 2) 3) 1 "invite").2 2 "invite").2
        3 "invite").2 = threeInvite ∧
    selectClientForRequestOutsideDialog threeInvite "INVITE" = some (some 1, threeInviteRouted) ∧
    liveRegistrations (leave threeInviteRouted 3) "invite" = 2 ∧
    Map.find (leave threeInviteRouted 3).m_map_of_request_type_offsets "invite" = some 1 ∧
    Option.map Prod.fst (selectRepeatedly "INVITE" 2 (leave threeInviteRouted 3))
      = some [some 2, some 2] := by
  decide

/-- C4, evaluated on the code: clients 1, 2 and 3 are connected and each
registers with the verb `INVITE` as written; a selection for `invite` finds no
registration and returns no client, because the verb is stored as passed in and
looked up in lower case. -/
theorem select_misses_upper_case_registration :
    Option.map Prod.fst (selectClientForRequestOutsideDialog
      (wants_requests (wants_requests (wants_requests
        (join (join (join ClientController.empty 1) 2) 3) 1 "INVITE").2 2 "INVITE").2
        3 "INVITE").2 "invite") = some none ∧
    Option.map Prod.fst (selectClientForRequestOutsideDialog
      (wants_requests (wants_requests (wants_requests
        (join (join (join ClientController.empty 1) 2) 3) 1 "INVITE").2 2 "INVITE").2
        3 "INVITE").2 "INVITE") = some none := by
  decide

/-- C5 as stated fails: with client 1 the only, live registration for `invite`,
a selection returns client 1 and leaves the stored offset at 1, which is not
below the number of live registrations (1). -/
theorem stored_offset_reaches_live_count :
    ∃ s2, selectClientForRequestOutsideDialog singleInvite "invite" = some (some 1, s2) ∧
      ∃ o, Map.find s2.m_map_of_request_type_offsets "invite" = some o ∧
        ¬ o < liveRegistrations s2 "invite" := by
  refine ⟨{ singleInvite with m_map_of_request_type_offsets := [("invite", 1)] }, by decide, 1,
    by decide, by decide⟩

/-- Erasing a key that was inserted after being erased gives what the first
erase gave. -/
theorem Map.erase_insert_erase {V : Type} (m : Map V) (k : String) (v : V) :
    Map.erase (Map.insert (Map.erase m k) k v) k = Map.erase m k := by
  have h : Map.insert (Map.erase m k) k v = Map.erase m k ++ [(k, v)] := by
    unfold Map.insert
    rw [Map.find_erase_self]
  rw [h]
  unfold Map.erase
  rw [List.filter_append, List.filter_filter]
  simp

/-- A stored offset that is not below the number of registrations of the verb is
read as 0: the call does what it does with the offset 0 stored. -/
theorem select_large_offset_as_zero (s : ClientController) (keyword : String) (i : Nat)
    (hfound : Multimap.count s.m_request_types (tolower keyword) % UINT ≠ 0)
    (hstored : Map.find s.m_map_of_request_type_offsets (tolower keyword) = some i)
    (hlarge : ¬ i < Multimap.count s.m_request_types (tolower keyword) % UINT) :
    selectClientForRequestOutsideDialog s keyword =
      selectClientForRequestOutsideDialog
        { s with
          m_map_of_request_type_offsets :=
            Map.insert (Map.erase s.m_map_of_request_type_offsets (tolower keyword))
              (tolower keyword) 0 } keyword := by
  have hpos : 0 < Multimap.count s.m_request_types (tolower keyword) % UINT :=
    Nat.pos_of_ne_zero hfound
  unfold selectClientForRequestOutsideDialog
  simp only [hfound, if_false, hstored, if_neg hlarge, Map.find_insert_erase, if_pos hpos,
    Map.erase_insert_erase]

/-- C5, amended: after a call of `selectClientForRequestOutsideDialog` that finds
registrations for the verb, the stored offset of the verb is at most the number
of registrations (live or not) the call found; and the next call, when it finds
registrations and the stored offset is not below their number, does what it
does with the offset 0 stored. -/
theorem stored_offset_le_registrations (s s2 : ClientController) (keyword : String)
    (r : Option ClientId)
    (hfound : Multimap.count s.m_request_types (tolower keyword) % UINT ≠ 0)
    (hcall : selectClientForRequestOutsideDialog s keyword = some (r, s2)) :
    (∃ o, Map.find s2.m_map_of_request_type_offsets (tolower keyword) = some o ∧
      o ≤ Multimap.count s.m_request_types (tolower keyword)) ∧
    (∀ o, Map.find s2.m_map_of_request_type_offsets (tolower keyword) = some o →
      Multimap.count s2.m_request_types (tolower keyword) % UINT ≠ 0 →
      ¬ o < Multimap.count s2.m_request_types (tolower keyword) % UINT →
      selectClientForRequestOutsideDialog s2 keyword =
        selectClientForRequestOutsideDialog
          { s2 with
            m_map_of_request_type_offsets :=
              Map.insert (Map.erase s2.m_map_of_request_type_offsets (tolower keyword))
                (tolower keyword) 0 } keyword) := by
  refine ⟨?_, fun o ho hfound2 hlarge =>
    select_large_offset_as_zero s2 keyword o hfound2 ho hlarge⟩
  unfold selectClientForRequestOutsideDialog at hcall
  simp only [hfound, if_false] at hcall
  split at hcall
  · cases hcall
  · rename_i i hi
    have hframe := (selectLoop_frame _ _ _ _ _ _ hcall).1
    rw [hframe]
    simp only
    refine ⟨_, Map.find_insert_erase _ _ _, ?_⟩
    have hle : Multimap.count s.m_request_types (tolower keyword) % UINT
        ≤ Multimap.count s.m_request_types (tolower keyword) := Nat.mod_le _ _
    have hpos : 0 < Multimap.count s.m_request_types (tolower keyword) % UINT :=
      Nat.pos_of_ne_zero hfound
    have hoff : (if i < Multimap.count s.m_request_types (tolower keyword) % UINT then i else 0)
        < Multimap.count s.m_request_types (tolower keyword) % UINT := by
      split <;> omega
    exact Nat.le_trans (Nat.mod_le _ _) (Nat.le_trans hoff hle)

/-- Witness for C5 (amended) on the state `singleInvite`: the call stores the
offset 1 with one registration, and the next call does what it does with the
offset 0 stored: it returns client 1 again. -/
theorem stored_offset_le_registrations_witness :
    Multimap.count singleInvite.m_request_types (tolower "invite") % UINT ≠ 0 ∧
    selectClientForRequestOutsideDialog singleInvite "invite" = some (some 1,
      { singleInvite with m_map_of_request_type_offsets := [("invite", 1)] }) ∧
    (∃ o, Map.find ({ singleInvite with m_map_of_request_type_offsets := [("invite", 1)] } :
        ClientController).m_map_of_request_type_offsets (tolower "invite") = some o ∧
      o ≤ Multimap.count singleInvite.m_request_types (tolower "invite")) ∧
    selectClientForRequestOutsideDialog
        { singleInvite with m_map_of_request_type_offsets := [("invite", 1)] } "invite" =
      selectClientForRequestOutsideDialog
        { singleInvite with m_map_of_request_type_offsets := [("invite", 0)] } "invite" ∧
    selectClientForRequestOutsideDialog
        { singleInvite with m_map_of_request_type_offsets := [("invite", 0)] } "invite"
      = some (some 1, { singleInvite with m_map_of_request_type_offsets := [("invite", 1)] }) :=
  ⟨by decide, by decide,
    (stored_offset_le_registrations singleInvite _ "invite" (some 1) (by decide)
      (by decide)).1,
    (stored_offset_le_registrations singleInvite
      { singleInvite with m_map_of_request_type_offsets := [("invite", 1)] } "invite" (some 1)
      (by decide) (by decide)).2 1 (by decide) (by decide) (by decide),
    by decide⟩

/-- C3: when the registrations of the verb are the block `grp` of `n ≥ 1` live
clients and the stored offset is `o`, then `m` successive calls of
`selectClientForRequestOutsideDialog` return, for `i = 0, …, m - 1`, the client
registered at index `(o2 + i) mod n` of the block, where `o2 = o` if `o < n`
and `0` otherwise. -/
theorem select_round_robin_all_live (keyword : String)
    (pre grp post : List (String × ClientId)) (m : Nat) :
    ∀ (s : ClientController) (o : Nat),
      Multimap.GroupOf s.m_request_types (tolower keyword) pre grp post →
      0 < grp.length → grp.length < UINT →
      (∀ e ∈ grp, owned s e.2 = true) →
      Map.find s.m_map_of_request_type_offsets (tolower keyword) = some o →
      ∃ s2, selectRepeatedly keyword m s =
        some (List.map (fun i => Option.map Prod.snd
          (grp.get? (((if o < grp.length then o else 0) + i) % grp.length))) (List.range m), s2) := by
  induction m with
  | zero =>
    intro s o _ _ _ _ _
    exact ⟨s, rfl⟩
  | succ m ih =>
    intro s o hgroup hn hsz hlive hoff
    have hstep := select_live_step s keyword pre grp post o hgroup hn hsz hlive hoff
    have ho : (if o < grp.length then o else 0) < grp.length := by split <;> omega
    generalize (if o < grp.length then o else 0) = o2 at hstep ho ⊢
    obtain ⟨s2, hrest⟩ := ih
      { s with
        m_map_of_request_type_offsets :=
          Map.insert (Map.erase s.m_map_of_request_type_offsets (tolower keyword))
            (tolower keyword) (o2 + 1) }
      (o2 + 1) hgroup hn hsz (fun e he => by simpa [owned] using hlive e he)
      (Map.find_insert_erase _ _ _)
    refine ⟨s2, ?_⟩
    unfold selectRepeatedly
    rw [hstep]
    simp only [hrest]
    rw [List.range_succ_eq_map, List.map_cons, List.map_map]
    have h0 : (o2 + 0) % grp.length = o2 := by rw [Nat.add_zero, Nat.mod_eq_of_lt ho]
    rw [h0]
    congr 3
    apply List.map_congr_left
    intro i _
    simp only [Function.comp]
    congr 2
    by_cases hlt : o2 + 1 < grp.length
    · rw [if_pos hlt]
      congr 1
      omega
    · rw [if_neg hlt]
      have h1 : o2 + Nat.succ i = grp.length + i := by omega
      rw [h1, Nat.zero_add, Nat.add_mod_left]

/-- Witness for C3: clients 1, 2, 3 registered for `invite` with stored offset 0;
four calls return 1, 2, 3, 1. -/
theorem select_round_robin_all_live_witness :
    Multimap.GroupOf threeInvite.m_request_types (tolower "INVITE") []
      [("invite", 1), ("invite", 2), ("invite", 3)] [] ∧
    Map.find threeInvite.m_map_of_request_type_offsets (tolower "INVITE") = some 0 ∧
    ∃ s2, selectRepeatedly "INVITE" 4 threeInvite = some ([some 1, some 2, some 3, some 1], s2) :=
  ⟨by decide, by decide,
    select_round_robin_all_live "INVITE" [] [("invite", 1), ("invite", 2), ("invite", 3)] [] 4
      threeInvite 0 (by decide) (by decide) (by decide) (by decide) (by decide)⟩

/-! ## Dialog lookup and failover -/

/-- The failover probe changes nothing, and a client it returns is owned. -/
theorem failoverLoop_frame (s : ClientController) (a : String) (n : Nat) :
    ∀ (remaining nOffset : Nat) (r : Option ClientId) (s2 : ClientController),
      failoverLoop s a n remaining nOffset = some (r, s2) →
      s2 = s ∧ ∀ c, r = some c → owned s c = true := by
  intro remaining
  induction remaining with
  | zero =>
    intro nOffset r s2 h
    unfold failoverLoop at h
    simp only at h
    split at h
    · cases h
    · split at h
      · cases h
        rename_i client hl
        exact ⟨rfl, fun c hc => by cases hc; exact (lock_eq_some hl).2⟩
      · cases h
        exact ⟨rfl, fun c hc => by cases hc⟩
  | succ k ih =>
    intro nOffset r s2 h
    unfold failoverLoop at h
    simp only at h
    split at h
    · cases h
    · split at h
      · cases h
        rename_i client hl
        exact ⟨rfl, fun c hc => by cases hc; exact (lock_eq_some hl).2⟩
      · exact ih _ _ _ h

/-- A selection changes neither `m_clients` nor the outside owners, and a client it
returns is owned. -/
theorem select_frame (s s2 : ClientController) (keyword : String) (r : Option ClientId)
    (h : selectClientForRequestOutsideDialog s keyword = some (r, s2)) :
    (s2.m_clients = s.m_clients ∧ s2.pinned = s.pinned) ∧ ∀ c, r = some c → owned s c = true := by
  unfold selectClientForRequestOutsideDialog at h
  simp only at h
  split at h
  · cases h
    exact ⟨⟨rfl, rfl⟩, fun c hc => by cases hc⟩
  · split at h
    · cases h
    · obtain ⟨h1, h2⟩ := selectLoop_frame _ _ _ _ _ _ h
      refine ⟨?_, ?_⟩
      · rw [h1]
        exact ⟨rfl, rfl⟩
      · intro c hc
        simpa [owned] using h2 c hc

/-- The dialog lookup changes nothing, and a client it returns is owned. -/
theorem findClientForDialog_frame (s s2 : ClientController) (rnd : Nat) (d : String)
    (r : Option ClientId) (h : findClientForDialog s rnd d = some (r, s2)) :
    s2 = s ∧ ∀ c, r = some c → owned s c = true := by
  unfold findClientForDialog findClientForDialog_nolock at h
  simp only at h
  split at h
  · rename_i c hc
    cases h
    refine ⟨rfl, fun c2 hc2 => ?_⟩
    cases hc2
    split at hc
    · exact (lock_eq_some hc).2
    · cases hc
  · split at h
    · cases h
      exact ⟨rfl, fun c hc => by cases hc⟩
    · split at h
      · cases h
        exact ⟨rfl, fun c hc => by cases hc⟩
      · exact failoverLoop_frame _ _ _ _ _ _ _ h

/-- No weak reference resolves to a client that is not owned. -/
theorem lock_ne_of_not_owned {s : ClientController} {w c : ClientId} (h : owned s c = false) :
    lock s w ≠ some c := by
  intro hl
  have := (lock_eq_some hl).2
  rw [h] at this
  cases this

/-- C6: once client `c` has left and no other `client_ptr` keeps it alive, `c` is
not owned; and in every controller state in which `c` is not owned, none of
`selectClientForRequestOutsideDialog`, `findClientForDialog`,
`findClientForNetTransaction`, `findClientForAppTransaction` and
`findClientForApiRequest` returns `c`, whatever bindings are recorded for `c`,
and the two calls that hand back a controller leave `c` not owned. -/
theorem departed_client_never_returned (s : ClientController) (c : ClientId)
    (hgone : c ∉ s.pinned) :
    owned (leave s c) c = false ∧
    ∀ s2 : ClientController, owned s2 c = false →
      (∀ keyword r s3, selectClientForRequestOutsideDialog s2 keyword = some (r, s3) →
        r ≠ some c ∧ owned s3 c = false) ∧
      (∀ rnd d r s3, findClientForDialog s2 rnd d = some (r, s3) →
        r ≠ some c ∧ owned s3 c = false) ∧
      (∀ t, findClientForNetTransaction s2 t ≠ some c) ∧
      (∀ t, findClientForAppTransaction s2 t ≠ some c) ∧
      (∀ m, findClientForApiRequest s2 m ≠ some c) := by
  refine ⟨?_, ?_⟩
  · simp [owned, leave, hgone]
  · intro s2 hdead
    refine ⟨?_, ?_, ?_, ?_, ?_⟩
    · intro keyword r s3 h
      obtain ⟨⟨h1, h2⟩, h3⟩ := select_frame _ _ _ _ h
      refine ⟨?_, ?_⟩
      · intro hr
        have := h3 c hr
        rw [hdead] at this
        cases this
      · unfold owned at hdead ⊢
        rw [h1, h2]
        exact hdead
    · intro rnd d r s3 h
      obtain ⟨h1, h3⟩ := findClientForDialog_frame _ _ _ _ _ h
      refine ⟨?_, ?_⟩
      · intro hr
        have := h3 c hr
        rw [hdead] at this
        cases this
      · rw [h1]
        exact hdead
    · intro t
      unfold findClientForNetTransaction
      split
      · exact lock_ne_of_not_owned hdead
      · simp
    · intro t
      unfold findClientForAppTransaction
      split
      · exact lock_ne_of_not_owned hdead
      · simp
    · intro m
      unfold findClientForApiRequest
      split
      · exact lock_ne_of_not_owned hdead
      · simp

/-- Witness for C6: client 1 of `voicemailDialog`, bound to dialog `d1` and
registered as a service, leaves. -/
theorem departed_client_never_returned_witness :
    (1 : ClientId) ∉ voicemailDialog.pinned ∧ owned (leave voicemailDialog 1) 1 = false ∧
    Option.map Prod.fst (findClientForDialog (leave voicemailDialog 1) 0 "d1") ≠ some (some 1) := by
  refine ⟨by decide, (departed_client_never_returned voicemailDialog 1 (by decide)).1, ?_⟩
  decide

/-- C7: a dialog whose binding resolves to a live client `p` is routed to `p`,
whatever the dialog-to-app-name and named-service tables hold, and the
controller is left as it was. -/
theorem dialog_primary_is_returned (s : ClientController) (rnd : Nat) (d : String)
    (p : ClientId) (hbound : Map.find s.m_mapDialogs d = some p) (hlive : owned s p = true) :
    findClientForDialog s rnd d = some (some p, s) := by
  unfold findClientForDialog findClientForDialog_nolock
  simp only [hbound, lock_of_owned hlive]

/-- Witness for C7: dialog `d1` of `voicemailDialog` is bound to the live client 1
while client 2 advertises the same app. -/
theorem dialog_primary_is_returned_witness :
    Map.find voicemailDialog.m_mapDialogs "d1" = some 1 ∧ owned voicemailDialog 1 = true ∧
    findClientForDialog voicemailDialog 1 "d1" = some (some 1, voicemailDialog) :=
  ⟨by decide, by decide, dialog_primary_is_returned voicemailDialog 1 "d1" 1 (by decide) (by decide)⟩

/-- The failover probe over the block `grp` of an app-name, started inside the
block: a client it returns is live and registered in the block; when it
returns none, every entry it passed (cyclically from the start) is dead. -/
theorem failoverLoop_scan (s : ClientController) (a : String)
    (pre grp post : List (String × ClientId))
    (hgroup : Multimap.GroupOf s.m_services a pre grp post) (hsz : grp.length < UINT) :
    ∀ (remaining nOffset : Nat), nOffset < grp.length →
      ∃ r, failoverLoop s a grp.length remaining nOffset = some (r, s) ∧
        (∀ c, r = some c → owned s c = true ∧ (a, c) ∈ grp) ∧
        (r = none → ∀ j, j ≤ remaining → ∀ e, grp.get? ((nOffset + j) % grp.length) = some e →
          owned s e.2 = false) := by
  intro remaining
  induction remaining with
  | zero =>
    intro nOffset ho
    unfold failoverLoop
    simp only
    rw [Multimap.get_of_group hgroup ho, List.get?_eq_get ho]
    simp only
    cases hown : owned s (grp.get ⟨nOffset, ho⟩).2 with
    | true =>
      rw [lock_of_owned hown]
      refine ⟨_, rfl, ?_, fun h => by cases h⟩
      intro c hc
      cases hc
      refine ⟨hown, ?_⟩
      have hmem := List.get_mem grp nOffset ho
      have hkey := hgroup.2.2.1 _ hmem
      rw [← hkey]
      exact hmem
    | false =>
      have hl : lock s (grp.get ⟨nOffset, ho⟩).2 = none := by
        simp only [lock, hown, Bool.false_eq_true, if_false]
      rw [hl]
      refine ⟨_, rfl, (fun c hc => by cases hc), ?_⟩
      intro _ j hj e he
      have hj0 : j = 0 := by omega
      subst hj0
      rw [Nat.add_zero, Nat.mod_eq_of_lt ho, List.get?_eq_get ho] at he
      cases he
      exact hown
  | succ k ih =>
    intro nOffset ho
    unfold failoverLoop
    simp only
    rw [Multimap.get_of_group hgroup ho, List.get?_eq_get ho]
    simp only
    cases hown : owned s (grp.get ⟨nOffset, ho⟩).2 with
    | true =>
      rw [lock_of_owned hown]
      refine ⟨_, rfl, ?_, fun h => by cases h⟩
      intro c hc
      cases hc
      refine ⟨hown, ?_⟩
      have hmem := List.get_mem grp nOffset ho
      have hkey := hgroup.2.2.1 _ hmem
      rw [← hkey]
      exact hmem
    | false =>
      have hl : lock s (grp.get ⟨nOffset, ho⟩).2 = none := by
        simp only [lock, hown, Bool.false_eq_true, if_false]
      rw [hl]
      simp only
      have hm : (nOffset + 1) % UINT = nOffset + 1 := Nat.mod_eq_of_lt (by omega)
      rw [hm]
      have ho2 : (if nOffset + 1 = grp.length then 0 else nOffset + 1) < grp.length := by
        split <;> omega
      obtain ⟨r, hr, hsome, hnone⟩ := ih _ ho2
      refine ⟨r, hr, hsome, ?_⟩
      intro hrn j hj e he
      cases j with
      | zero =>
        rw [Nat.add_zero, Nat.mod_eq_of_lt ho, List.get?_eq_get ho] at he
        cases he
        exact hown
      | succ j =>
        apply hnone hrn j (by omega) e
        rw [← he]
        congr 1
        by_cases heq : nOffset + 1 = grp.length
        · rw [if_pos heq]
          have : nOffset + (j + 1) = grp.length + j := by omega
          rw [this, Nat.zero_add, Nat.add_mod_left]
        · rw [if_neg heq]
          congr 1
          omega

/-- C8: when the dialog's primary client is missing or dead and the
dialog-to-app-name table maps the dialog to `a`, whose services are the block
`grp` of the named-service table, then for every value `rnd` of the random start
`findClientForDialog` returns a live client registered under `a` if one exists
and no client otherwise. -/
theorem failover_finds_live_service (s : ClientController) (rnd : Nat) (d a : String)
    (pre grp post : List (String × ClientId))
    (hprimary : ∀ p, Map.find s.m_mapDialogs d = some p → owned s p = false)
    (happ : Map.find s.m_mapDialogId2Appname d = some a)
    (hgroup : Multimap.GroupOf s.m_services a pre grp post) (hsz : grp.length < UINT) :
    ∃ r, findClientForDialog s rnd d = some (r, s) ∧
      ((∃ e ∈ grp, owned s e.2 = true) →
        ∃ c, r = some c ∧ owned s c = true ∧ (a, c) ∈ s.m_services) ∧
      ((∀ e ∈ grp, owned s e.2 = false) → r = none) := by
  have hcount := Multimap.count_of_group hgroup
  have hmod : grp.length % UINT = grp.length := Nat.mod_eq_of_lt hsz
  have hsub : ∀ c, (a, c) ∈ grp → (a, c) ∈ s.m_services := by
    intro c hc
    rw [hgroup.1]
    exact List.mem_append_left _ (List.mem_append_right _ hc)
  have hprim : (match Map.find s.m_mapDialogs d with
      | some w => lock s w
      | none => none) = none := by
    split
    · rename_i w hw
      simp [lock, hprimary w hw]
    · rfl
  unfold findClientForDialog findClientForDialog_nolock
  simp only [hprim, happ, hcount, hmod]
  by_cases hn : grp.length = 0
  · rw [if_pos hn]
    have hnil : grp = [] := List.eq_nil_of_length_eq_zero hn
    refine ⟨none, rfl, ?_, fun _ => rfl⟩
    rintro ⟨e, he, _⟩
    rw [hnil] at he
    cases he
  · rw [if_neg hn]
    have hpos : 0 < grp.length := Nat.pos_of_ne_zero hn
    have hstart : rnd % grp.length < grp.length := Nat.mod_lt _ hpos
    obtain ⟨r, hr, hsome, hnone⟩ :=
      failoverLoop_scan s a pre grp post hgroup hsz (grp.length - 1) _ hstart
    refine ⟨r, hr, ?_, ?_⟩
    · rintro ⟨e, he, hlive⟩
      cases r with
      | some c => exact ⟨c, rfl, (hsome c rfl).1, hsub c (hsome c rfl).2⟩
      | none =>
        exfalso
        obtain ⟨i, hi, hie⟩ := List.getElem_of_mem he
        have hdead := hnone rfl ((i + grp.length - rnd % grp.length) % grp.length)
          (by have := Nat.mod_lt (i + grp.length - rnd % grp.length) hpos; omega) e
          (by
            rw [Nat.add_mod_mod]
            have h1 : rnd % grp.length + (i + grp.length - rnd % grp.length) = grp.length + i := by
              omega
            rw [h1, Nat.add_mod_left, Nat.mod_eq_of_lt hi, List.get?_eq_getElem?,
              List.getElem?_eq_getElem hi, hie])
        rw [hlive] at hdead
        cases hdead
    · intro hall
      cases r with
      | none => rfl
      | some c =>
        have h1 := hsome c rfl
        have h2 := hall _ h1.2
        rw [h1.1] at h2
        cases h2

/-- Witness for C8: client 1 of `voicemailDialog` has left; the failover for `d1`
returns client 2, for either start offset. -/
theorem failover_finds_live_service_witness :
    ∃ r, findClientForDialog (leave voicemailDialog 1) 0 "d1" = some (r, leave voicemailDialog 1) ∧
      ((∃ e ∈ [("voicemail", 1), ("voicemail", 2)], owned (leave voicemailDialog 1) e.2 = true) →
        ∃ c, r = some c ∧ owned (leave voicemailDialog 1) c = true ∧
          ("voicemail", c) ∈ (leave voicemailDialog 1).m_services) ∧
      ((∀ e ∈ [("voicemail", 1), ("voicemail", 2)], owned (leave voicemailDialog 1) e.2 = false) →
        r = none) :=
  failover_finds_live_service (leave voicemailDialog 1) 0 "d1" "voicemail" []
    [("voicemail", 1), ("voicemail", 2)] [] (by decide) (by decide) (by decide) (by decide)

/-- C9 as stated fails: client 1, the primary of dialog `d1`, has left; the
lookup returns the replacement client 2, and afterwards the dialog table still
binds `d1` to client 1, not to the replacement. -/
theorem failover_does_not_rebind :
    ∃ r s2, findClientForDialog (leave voicemailDialog 1) 0 "d1" = some (some r, s2) ∧
      Map.find (leave voicemailDialog 1).m_mapDialogs "d1" = some 1 ∧
      owned (leave voicemailDialog 1) 1 = false ∧
      Map.find s2.m_mapDialogs "d1" ≠ some r :=
  ⟨2, leave voicemailDialog 1, by decide, by decide, by decide, by decide⟩

/-- C9, amended: when the primary client `p` of dialog `d` is dead and
`findClientForDialog` returns a replacement `r`, then `r` is a live client other
than `p` and the controller is left as it was; the dialog table still binds `d`
to `p`. -/
theorem failover_keeps_dialog_binding (s s2 : ClientController) (rnd : Nat) (d : String)
    (p r : ClientId) (hbound : Map.find s.m_mapDialogs d = some p)
    (hdead : owned s p = false)
    (hcall : findClientForDialog s rnd d = some (some r, s2)) :
    s2 = s ∧ Map.find s2.m_mapDialogs d = some p ∧ owned s r = true ∧ r ≠ p := by
  obtain ⟨h1, h2⟩ := findClientForDialog_frame _ _ _ _ _ hcall
  have hr := h2 r rfl
  refine ⟨h1, by rw [h1]; exact hbound, hr, ?_⟩
  intro hrp
  rw [hrp, hdead] at hr
  cases hr

/-- Witness for C9 (amended) on `voicemailDialog` after client 1 has left. -/
theorem failover_keeps_dialog_binding_witness :
    Map.find (leave voicemailDialog 1).m_mapDialogs "d1" = some 1 ∧
    owned (leave voicemailDialog 1) 1 = false ∧
    findClientForDialog (leave voicemailDialog 1) 0 "d1" = some (some 2, leave voicemailDialog 1) ∧
    (leave voicemailDialog 1 = leave voicemailDialog 1 ∧
      Map.find (leave voicemailDialog 1).m_mapDialogs "d1" = some 1 ∧
      owned (leave voicemailDialog 1) 2 = true ∧ (2 : ClientId) ≠ 1) :=
  ⟨by decide, by decide, by decide,
    failover_keeps_dialog_binding (leave voicemailDialog 1) (leave voicemailDialog 1) 0 "d1" 1 2
      (by decide) (by decide) (by decide)⟩

/-- C10, evaluated on the code: dialog `d1` is bound to client 1 with app-name
`voicemail`, which clients 1 and 2 advertise. After `removeDialog` the dialog
table has no entry for `d1`, the dialog-to-app-name table still has one, and
`findClientForDialog` returns a client for every value of the random start:
client 1 for an even value, client 2 for an odd one. -/
theorem removed_dialog_still_routed :
    Map.find (removeDialog voicemailDialog "d1").m_mapDialogs "d1" = none ∧
    Map.find (removeDialog voicemailDialog "d1").m_mapDialogId2Appname "d1" = some "voicemail" ∧
    ∀ rnd, ∃ c, findClientForDialog (removeDialog voicemailDialog "d1") rnd "d1"
      = some (some c, removeDialog voicemailDialog "d1") := by
  refine ⟨by decide, by decide, ?_⟩
  intro rnd
  have h : findClientForDialog (removeDialog voicemailDialog "d1") rnd "d1"
      = failoverLoop (removeDialog voicemailDialog "d1") "voicemail" 2 1 (rnd % 2) := rfl
  rw [h]
  rcases Nat.mod_two_eq_zero_or_one rnd with h0 | h1
  · rw [h0]
    exact ⟨1, by decide⟩
  · rw [h1]
    exact ⟨2, by decide⟩

/-! ## Map lemmas -/

/-- Inserting a key that is not bound binds it to the inserted value. -/
theorem Map.find_insert_of_none {V : Type} (m : Map V) (k : String) (v : V)
    (h : Map.find m k = none) : Map.find (Map.insert m k v) k = some v := by
  unfold Map.insert
  rw [h]
  exact Map.find_append_of_none m k v h

/-- Inserting a key that is bound changes nothing. -/
theorem Map.insert_of_some {V : Type} (m : Map V) (k : String) (v w : V)
    (h : Map.find m k = some w) : Map.insert m k v = m := by
  unfold Map.insert
  rw [h]

/-- Inserting a key leaves the other keys as they were. -/
theorem Map.find_insert_ne {V : Type} (m : Map V) (k k2 : String) (v : V) (hne : k2 ≠ k) :
    Map.find (Map.insert m k v) k2 = Map.find m k2 := by
  have happ : List.lookup k2 (m ++ [(k, v)]) = List.lookup k2 m := by
    induction m with
    | nil =>
      have h2 : (k2 == k) = false := by simpa using hne
      simp [List.lookup, h2]
    | cons e m ih =>
      obtain ⟨a, b⟩ := e
      simp only [List.cons_append, List.lookup_cons]
      cases (k2 == a) with
      | true => rfl
      | false => exact ih
  unfold Map.insert
  split
  · rfl
  · exact happ

/-- Erasing a key leaves the other keys as they were. -/
theorem Map.find_erase_ne {V : Type} (m : Map V) (k k2 : String) (hne : k2 ≠ k) :
    Map.find (Map.erase m k) k2 = Map.find m k2 := by
  unfold Map.find Map.erase
  induction m with
  | nil => rfl
  | cons e m ih =>
    obtain ⟨a, b⟩ := e
    by_cases hk : a = k
    · have h1 : (a != k) = false := by simp [hk]
      have h2 : (k2 == a) = false := by
        rw [hk]
        simpa using hne
      simp only [List.filter_cons, h1, List.lookup_cons, h2]
      exact ih
    · have h1 : (a != k) = true := by simp [hk]
      simp only [List.filter_cons, h1, if_true, List.lookup_cons]
      cases (k2 == a) with
      | true => rfl
      | false => exact ih

/-- Erasing a key that is not bound changes nothing. -/
theorem Map.erase_of_none {V : Type} (m : Map V) (k : String) (h : Map.find m k = none) :
    Map.erase m k = m := by
  unfold Map.find at h
  unfold Map.erase
  induction m with
  | nil => rfl
  | cons e m ih =>
    obtain ⟨a, b⟩ := e
    simp only [List.lookup_cons] at h
    cases hka : (k == a) with
    | true => rw [hka] at h; cases h
    | false =>
      rw [hka] at h
      have hne : a ≠ k := by
        intro hak
        rw [hak] at hka
        simp at hka
      have h1 : (a != k) = true := by simp [hne]
      simp only [List.filter_cons, h1, if_true]
      rw [ih h]

/-- An entry found after an erase was there before. -/
theorem Map.find_erase_some {V : Type} (m : Map V) (k k2 : String) (v : V)
    (h : Map.find (Map.erase m k) k2 = some v) : Map.find m k2 = some v := by
  by_cases hk : k2 = k
  · rw [hk, Map.find_erase_self] at h
    cases h
  · rw [Map.find_erase_ne m k k2 hk] at h
    exact h

/-! ## Dialog promotion -/

/-- Ownership is decided by `m_clients` and the outside owners alone. -/
theorem owned_congr {s s2 : ClientController} (h1 : s2.m_clients = s.m_clients)
    (h2 : s2.pinned = s.pinned) (c : ClientId) : owned s2 c = owned s c := by
  unfold owned
  rw [h1, h2]

/-- A dialog bound to a live client is resolved to that client. -/
theorem findClientForDialog_nolock_primary (s : ClientController) (rnd : Nat) (d : String)
    (p : ClientId) (hbound : Map.find s.m_mapDialogs d = some p) (hlive : owned s p = true) :
    findClientForDialog_nolock s rnd d = some (some p, s) := by
  unfold findClientForDialog_nolock
  simp only [hbound, lock_of_owned hlive]

/-- The second half of `addDialogForTransaction` when the dialog is bound to a
live client: the call returns, and the dialog resolves to that client
afterwards. -/
theorem promotion_of_live_binding (getAppName : ClientId → Option String)
    (s1 : ClientController) (rnd : Nat) (d : String) (c : ClientId)
    (hbound : Map.find s1.m_mapDialogs d = some c) (hlive : owned s1 c = true) :
    ∃ s2, (match findClientForDialog_nolock s1 rnd d with
        | none => Outcome.undefinedBehaviour
        | some (none, s2) =>
          Outcome.returned { s2 with m_mapDialogs := Map.erase s2.m_mapDialogs d }
        | some (some client, s2) =>
          match getAppName client with
          | some strAppName =>
            Outcome.returned { s2 with
              m_mapDialogId2Appname := Map.insert s2.m_mapDialogId2Appname d strAppName }
          | none => Outcome.returned s2) = Outcome.returned s2 ∧
      Map.find s2.m_mapDialogs d = some c ∧
      ∀ rnd2, findClientForDialog s2 rnd2 d = some (some c, s2) := by
  rw [findClientForDialog_nolock_primary s1 rnd d c hbound hlive]
  simp only
  cases getAppName c with
  | none =>
    exact ⟨s1, rfl, hbound, fun rnd2 => findClientForDialog_nolock_primary s1 rnd2 d c hbound hlive⟩
  | some a =>
    exact ⟨_, rfl, hbound, fun rnd2 =>
      findClientForDialog_nolock_primary _ rnd2 d c hbound (by simpa [owned] using hlive)⟩

/-- C11 as stated fails: the network transaction `t1` is bound to the live client
1, but dialog `d1` was bound before, to client 2; after
`addDialogForTransaction` the dialog still resolves to client 2. And on
`staleBinding`, where `d1` was bound before to client 3, which has departed,
the entry of `d1` is erased: the dialog resolves to no client, not to the live
client 1 of `t1`. -/
theorem promotion_keeps_earlier_binding :
    Map.find promotedDialog.m_mapNetTransactions "t1" = some 1 ∧
    owned promotedDialog 1 = true ∧
    (∃ s2, addDialogForTransaction false (fun _ => none) promotedDialog 0 "t1" "d1"
        = Outcome.returned s2 ∧
      findClientForDialog s2 0 "d1" = some (some 2, s2)) ∧
    Map.find staleBinding.m_mapNetTransactions "t1" = some 1 ∧
    owned staleBinding 1 = true ∧
    ∃ s2, addDialogForTransaction false (fun _ => none) staleBinding 0 "t1" "d1"
        = Outcome.returned s2 ∧
      s2.m_mapDialogs = [] ∧ findClientForDialog s2 0 "d1" = some (none, s2) :=
  ⟨by decide, by decide, ⟨promotedDialog, by decide, by decide⟩, by decide, by decide,
    { staleBinding with m_mapDialogs := [] }, by decide, rfl, by decide⟩

/-- A dialog that is not bound resolves to a client only through an entry of the
dialog-to-app-name table. -/
theorem failover_needs_app_name (s s2 : ClientController) (rnd : Nat) (d : String)
    (c : ClientId) (hfree : Map.find s.m_mapDialogs d = none)
    (h : findClientForDialog_nolock s rnd d = some (some c, s2)) :
    ∃ a, Map.find s.m_mapDialogId2Appname d = some a := by
  unfold findClientForDialog_nolock at h
  simp only [hfree] at h
  cases happ : Map.find s.m_mapDialogId2Appname d with
  | some a => exact ⟨a, rfl⟩
  | none =>
    rw [happ] at h
    simp at h

/-- C12 fails: for the transaction id `t9`, which is in neither map, and the
dialog `d9`, which is not bound, `addDialogForTransaction` logs the error and
runs into its `assert(false)`: the promotion is not dropped, the process is
terminated. Only a build without assertions returns, with the controller
unchanged. -/
theorem promotion_of_unknown_transaction_asserts :
    Map.find promotedDialog.m_mapNetTransactions "t9" = none ∧
    Map.find promotedDialog.m_mapAppTransactions "t9" = none ∧
    Map.find promotedDialog.m_mapDialogs "d9" = none ∧
    addDialogForTransaction false (fun _ => none) promotedDialog 0 "t9" "d9"
      = Outcome.assertionFailed ∧
    addDialogForTransaction true (fun _ => none) promotedDialog 0 "t9" "d9"
      = Outcome.returned promotedDialog := by
  decide

/-- The unknown transaction in general: for a transaction id in neither the
net-tx nor the app-tx map and a dialog that is not bound,
`addDialogForTransaction` fails its assertion when assertions are compiled in.
In a build with `NDEBUG` no assertion fails; the call returns the controller
unchanged when the dialog has no app-name entry, and whenever it returns, the
dialog table and the dialog-to-app-name table are as before. -/
theorem promotion_of_unknown_transaction (getAppName : ClientId → Option String)
    (s : ClientController) (rnd : Nat) (tx d : String)
    (hnet : Map.find s.m_mapNetTransactions tx = none)
    (happ : Map.find s.m_mapAppTransactions tx = none)
    (hfree : Map.find s.m_mapDialogs d = none) :
    addDialogForTransaction false getAppName s rnd tx d = Outcome.assertionFailed ∧
    addDialogForTransaction true getAppName s rnd tx d ≠ Outcome.assertionFailed ∧
    (Map.find s.m_mapDialogId2Appname d = none →
      addDialogForTransaction true getAppName s rnd tx d = Outcome.returned s) ∧
    (∀ s2, addDialogForTransaction true getAppName s rnd tx d = Outcome.returned s2 →
      s2.m_mapDialogs = s.m_mapDialogs ∧
      s2.m_mapDialogId2Appname = s.m_mapDialogId2Appname) := by
  have herase : Map.erase s.m_mapDialogs d = s.m_mapDialogs := Map.erase_of_none _ _ hfree
  refine ⟨?_, ?_, ?_, ?_⟩
  · unfold addDialogForTransaction
    simp only [hnet, happ, hfree]
    rfl
  · unfold addDialogForTransaction
    simp only [hnet, happ, hfree, if_true]
    intro h
    split at h
    · cases h
    · cases h
    · split at h <;> cases h
  · intro hname
    have hlook : findClientForDialog_nolock s rnd d = some (none, s) := by
      unfold findClientForDialog_nolock
      simp only [hfree, hname]
    unfold addDialogForTransaction
    simp only [hnet, happ, hfree, if_true, hlook, herase]
  · intro s2 h
    unfold addDialogForTransaction at h
    simp only [hnet, happ, hfree, if_true] at h
    split at h
    · cases h
    · rename_i s3 hlook
      have hs3 : s3 = s := (findClientForDialog_frame s s3 rnd d none hlook).1
      subst hs3
      cases h
      exact ⟨herase, rfl⟩
    · rename_i client s3 hlook
      have hs3 : s3 = s := (findClientForDialog_frame s s3 rnd d (some client) hlook).1
      subst hs3
      obtain ⟨a, ha⟩ := failover_needs_app_name s3 s3 rnd d client hfree hlook
      split at h
      · cases h
        exact ⟨rfl, Map.insert_of_some _ d _ a ha⟩
      · cases h
        exact ⟨rfl, rfl⟩

/-- The unknown transaction `t9` with the dialog `d9` on `promotedDialog`, as an
instance of the general statement. -/
theorem promotion_of_unknown_transaction_witness :
    addDialogForTransaction false (fun _ => none) promotedDialog 0 "t9" "d9"
      = Outcome.assertionFailed ∧
    addDialogForTransaction true (fun _ => none) promotedDialog 0 "t9" "d9"
      = Outcome.returned promotedDialog :=
  ⟨(promotion_of_unknown_transaction (fun _ => none) promotedDialog 0 "t9" "d9"
      (by decide) (by decide) (by decide)).1,
    (promotion_of_unknown_transaction (fun _ => none) promotedDialog 0 "t9" "d9"
      (by decide) (by decide) (by decide)).2.2.1 (by decide)⟩

/-- The search `findFrom` succeeds exactly when the pattern occurs in the text. -/
theorem findFrom_ne_none_iff (pat : List Char) :
    ∀ (l : List Char) (i : Nat), findFrom pat l i ≠ none ↔ pat <:+: l := by
  intro l
  induction l with
  | nil =>
    intro i
    unfold findFrom
    by_cases hp : pat.isPrefixOf [] = true
    · rw [if_pos hp]
      have := List.isPrefixOf_iff_prefix.mp hp
      exact ⟨fun _ => this.isInfix, fun _ h => by cases h⟩
    · rw [if_neg hp]
      refine ⟨fun h => absurd rfl h, fun h => ?_⟩
      have hnil : pat = [] := List.infix_nil.mp h
      subst hnil
      exact absurd rfl hp
  | cons c t ih =>
    intro i
    unfold findFrom
    by_cases hp : pat.isPrefixOf (c :: t) = true
    · rw [if_pos hp]
      have := List.isPrefixOf_iff_prefix.mp hp
      exact ⟨fun _ => this.isInfix, fun _ h => by cases h⟩
    · rw [if_neg hp, ih (i + 1), List.infix_cons_iff]
      constructor
      · exact fun h => Or.inr h
      · rintro (h | h)
        · exact absurd (List.isPrefixOf_iff_prefix.mpr h) hp
        · exact h

/-- The call `str.find(pat)` differs from `npos` exactly when `pat` is a substring
of `str`. -/
theorem str_find_ne_none_iff (str pat : String) :
    str_find str pat ≠ none ↔ pat.data <:+: str.data :=
  findFrom_ne_none_iff pat.data str.data 0

/-- The call `str.find(pat)` yields 0 exactly when `str` begins with `pat`. -/
theorem str_find_eq_zero_iff (str pat : String) :
    str_find str pat = some 0 ↔ pat.data <+: str.data := by
  unfold str_find
  have hpos : ∀ (l : List Char) (i : Nat), findFrom pat.data l (i + 1) ≠ some 0 := by
    intro l
    induction l with
    | nil =>
      intro i
      unfold findFrom
      split <;> simp
    | cons c t ih =>
      intro i
      unfold findFrom
      split
      · simp
      · exact ih (i + 1)
  cases hs : str.data with
  | nil =>
    unfold findFrom
    by_cases hp : pat.data.isPrefixOf [] = true
    · rw [if_pos hp]
      exact ⟨fun _ => List.isPrefixOf_iff_prefix.mp hp, fun _ => rfl⟩
    · rw [if_neg hp]
      exact ⟨(fun h => by cases h), fun h => absurd (List.isPrefixOf_iff_prefix.mpr h) hp⟩
  | cons c t =>
    unfold findFrom
    by_cases hp : pat.data.isPrefixOf (c :: t) = true
    · rw [if_pos hp]
      exact ⟨fun _ => List.isPrefixOf_iff_prefix.mp hp, fun _ => rfl⟩
    · rw [if_neg hp]
      exact ⟨fun h => absurd h (hpos t 0), fun h => absurd (List.isPrefixOf_iff_prefix.mpr h) hp⟩

/-! ## API requests and responses -/

/-- C13: for a message id `m` bound in the api-request table to a live client
`c`, `route_api_response` returns true and posts the response to `c`, and
afterwards `m` is still bound exactly when the trailing data contains the
substring `|continue` (the controller is then unchanged). -/
theorem api_response_delivery (s : ClientController) (m body trailing : String) (c : ClientId)
    (hbound : Map.find s.m_mapApiRequests m = some c) (hlive : owned s c = true) :
    ∃ s2, route_api_response s m body trailing
        = (true, [Posted.sendApiResponseToClient c m body trailing], s2) ∧
      ((Map.find s2.m_mapApiRequests m).isSome = true ↔ "|continue".data <:+: trailing.data) ∧
      ("|continue".data <:+: trailing.data → s2 = s) := by
  have hfind : findClientForApiRequest s m = some c := by
    unfold findClientForApiRequest
    simp only [hbound, lock_of_owned hlive]
  rw [← str_find_ne_none_iff]
  unfold route_api_response
  simp only [hfind]
  by_cases hcont : str_find trailing "|continue" = none
  · rw [if_pos hcont]
    refine ⟨_, rfl, ?_, fun h => absurd hcont h⟩
    unfold removeApiRequest
    simp only [Map.find_erase_self]
    constructor
    · intro h
      cases h
    · intro h
      exact absurd hcont h
  · rw [if_neg hcont]
    refine ⟨s, rfl, ?_, fun _ => rfl⟩
    rw [hbound]
    exact ⟨fun _ => hcont, fun _ => rfl⟩

/-- Witness for C13: request `m1` of `pendingApiRequest` belongs to client 2; the
response `resp-1` with trailing `|continue` and the response `resp-2` without
it both go to client 2; the binding stays after the first and is gone after the
second. -/
theorem api_response_delivery_witness :
    (∃ s2, route_api_response pendingApiRequest "m1" "resp-1" "|continue"
        = (true, [Posted.sendApiResponseToClient 2 "m1" "resp-1" "|continue"], s2) ∧
      ((Map.find s2.m_mapApiRequests "m1").isSome = true
        ↔ "|continue".data <:+: "|continue".data) ∧
      ("|continue".data <:+: "|continue".data → s2 = pendingApiRequest)) ∧
    (∃ s3, route_api_response pendingApiRequest "m1" "resp-2" ""
        = (true, [Posted.sendApiResponseToClient 2 "m1" "resp-2" ""], s3) ∧
      ((Map.find s3.m_mapApiRequests "m1").isSome = true ↔ "|continue".data <:+: "".data) ∧
      ("|continue".data <:+: "".data → s3 = pendingApiRequest)) ∧
    Map.find (route_api_response pendingApiRequest "m1" "resp-2" "").2.2.m_mapApiRequests "m1"
      = none :=
  ⟨api_response_delivery pendingApiRequest "m1" "resp-1" "|continue" 2 (by decide) (by decide),
    api_response_delivery pendingApiRequest "m1" "resp-2" "" 2 (by decide) (by decide),
    by decide⟩

/-- After `addApiRequest` for a message id that was not bound, the id resolves to
the client that issued it, as long as that client is live. -/
theorem addApiRequest_lookup (s : ClientController) (c : ClientId) (m : String)
    (hfree : Map.find s.m_mapApiRequests m = none) (hlive : owned s c = true) :
    findClientForApiRequest (addApiRequest s c m) m = some c := by
  unfold findClientForApiRequest addApiRequest
  simp only [Map.find_insert_of_none _ m c hfree]
  exact lock_of_owned (by simpa [owned] using hlive)

/-- The lookup of an API request reads the api-request table and the owners only. -/
theorem findClientForApiRequest_congr {s s2 : ClientController}
    (h1 : s2.m_mapApiRequests = s.m_mapApiRequests) (h2 : s2.m_clients = s.m_clients)
    (h3 : s2.pinned = s.pinned) (m : String) :
    findClientForApiRequest s2 m = findClientForApiRequest s m := by
  unfold findClientForApiRequest lock
  rw [h1]
  cases Map.find s.m_mapApiRequests m with
  | none => rfl
  | some w => simp only [owned_congr h2 h3]

/-- C14 as stated fails: message id `m1` is already bound to client 2 when the
live client 1 issues a command with the same id; afterwards the id still
resolves to client 2. -/
theorem api_request_keeps_earlier_binding :
    owned pendingApiRequest 1 = true ∧
    findClientForApiRequest (respondToSipRequest (fun _ => true) pendingApiRequest 1 "m1").2 "m1"
      = some 2 ∧
    findClientForApiRequest (proxyRequest pendingApiRequest 1 "m1" "t1").2 "m1" = some 2 := by
  decide

/-- C14, amended: when the message id `m` is not bound in the api-request table,
then after each of the five commands issued by the live client `c` with id `m`
the lookup `findClientForApiRequest m` returns `c`; when `m` is bound already,
the command leaves the api-request table as it was. -/
theorem api_request_recorded (engine : ClientController → Bool) (uuid : String)
    (s : ClientController) (c : ClientId) (m startLine tx : String)
    (hlive : owned s c = true) :
    (Map.find s.m_mapApiRequests m = none →
      findClientForApiRequest (sendRequestInsideDialog engine uuid s c m startLine).2.2 m
        = some c ∧
      findClientForApiRequest (sendRequestOutsideDialog engine uuid s c m startLine).2.2 m
        = some c ∧
      findClientForApiRequest (respondToSipRequest engine s c m).2 m = some c ∧
      findClientForApiRequest (sendCancelRequest engine s c m).2 m = some c ∧
      findClientForApiRequest (proxyRequest s c m tx).2 m = some c) ∧
    (∀ w, Map.find s.m_mapApiRequests m = some w →
      (sendRequestInsideDialog engine uuid s c m startLine).2.2.m_mapApiRequests
        = s.m_mapApiRequests ∧
      (sendRequestOutsideDialog engine uuid s c m startLine).2.2.m_mapApiRequests
        = s.m_mapApiRequests ∧
      (respondToSipRequest engine s c m).2.m_mapApiRequests = s.m_mapApiRequests ∧
      (sendCancelRequest engine s c m).2.m_mapApiRequests = s.m_mapApiRequests ∧
      (proxyRequest s c m tx).2.m_mapApiRequests = s.m_mapApiRequests) := by
  have hsend : ∀ s1 : ClientController,
      s1 = (if str_find startLine "ACK" ≠ some 0 then addAppTransaction s c uuid else s) →
      s1.m_mapApiRequests = s.m_mapApiRequests ∧ s1.m_clients = s.m_clients ∧
        s1.pinned = s.pinned := by
    intro s1 hs1
    rw [hs1]
    split <;> exact ⟨rfl, rfl, rfl⟩
  refine ⟨?_, ?_⟩
  · intro hfree
    have hin : findClientForApiRequest (addApiRequest
        (if str_find startLine "ACK" ≠ some 0 then addAppTransaction s c uuid else s) c m) m
        = some c := by
      obtain ⟨h1, h2, h3⟩ := hsend _ rfl
      exact addApiRequest_lookup _ c m (by rw [h1]; exact hfree)
        (by rw [owned_congr h2 h3]; exact hlive)
    refine ⟨hin, hin, addApiRequest_lookup s c m hfree hlive,
      addApiRequest_lookup s c m hfree hlive, ?_⟩
    have := addApiRequest_lookup s c m hfree hlive
    rw [← this]
    exact findClientForApiRequest_congr rfl rfl rfl m
  · intro w hbound
    have hkeep : Map.insert s.m_mapApiRequests m c = s.m_mapApiRequests :=
      Map.insert_of_some _ m c w hbound
    have hin : (addApiRequest
        (if str_find startLine "ACK" ≠ some 0 then addAppTransaction s c uuid else s) c
        m).m_mapApiRequests = s.m_mapApiRequests := by
      obtain ⟨h1, _, _⟩ := hsend _ rfl
      unfold addApiRequest
      simp only [h1]
      exact hkeep
    exact ⟨hin, hin, hkeep, hkeep, hkeep⟩

/-- Witness for C14 (amended): client 1 of `pendingApiRequest` issues commands
with the new id `m2`, and one with the bound id `m1`. -/
theorem api_request_recorded_witness :
    findClientForApiRequest (respondToSipRequest (fun _ => true) pendingApiRequest 1 "m2").2 "m2"
      = some 1 ∧
    findClientForApiRequest (proxyRequest pendingApiRequest 1 "m2" "t1").2 "m2" = some 1 ∧
    (sendCancelRequest (fun _ => true) pendingApiRequest 1 "m1").2.m_mapApiRequests
      = pendingApiRequest.m_mapApiRequests :=
  ⟨((api_request_recorded (fun _ => true) "u1" pendingApiRequest 1 "m2" "INVITE sip:a" "t1"
      (by decide)).1 (by decide)).2.2.1,
    ((api_request_recorded (fun _ => true) "u1" pendingApiRequest 1 "m2" "INVITE sip:a" "t1"
      (by decide)).1 (by decide)).2.2.2.2,
    ((api_request_recorded (fun _ => true) "u1" pendingApiRequest 1 "m1" "INVITE sip:a" "t1"
      (by decide)).2 2 (by decide)).2.2.2.1⟩

/-- C19: `proxyRequest` returns true; afterwards the net-tx map has no entry for
`tx` and the api-request table has one for `m`; the other entries of these two
maps, the binding of `m` if there was one, and all other tables are as
before. -/
theorem proxy_request_frame (s : ClientController) (c : ClientId) (m tx : String) :
    (proxyRequest s c m tx).1 = true ∧
    Map.find (proxyRequest s c m tx).2.m_mapNetTransactions tx = none ∧
    (Map.find (proxyRequest s c m tx).2.m_mapApiRequests m).isSome = true ∧
    (∀ k, k ≠ tx → Map.find (proxyRequest s c m tx).2.m_mapNetTransactions k
      = Map.find s.m_mapNetTransactions k) ∧
    (∀ k, k ≠ m → Map.find (proxyRequest s c m tx).2.m_mapApiRequests k
      = Map.find s.m_mapApiRequests k) ∧
    (∀ w, Map.find s.m_mapApiRequests m = some w →
      (proxyRequest s c m tx).2.m_mapApiRequests = s.m_mapApiRequests) ∧
    (proxyRequest s c m tx).2.m_mapAppTransactions = s.m_mapAppTransactions ∧
    (proxyRequest s c m tx).2.m_mapDialogs = s.m_mapDialogs ∧
    (proxyRequest s c m tx).2.m_mapDialogId2Appname = s.m_mapDialogId2Appname ∧
    (proxyRequest s c m tx).2.m_request_types = s.m_request_types ∧
    (proxyRequest s c m tx).2.m_map_of_request_type_offsets = s.m_map_of_request_type_offsets ∧
    (proxyRequest s c m tx).2.m_services = s.m_services ∧
    (proxyRequest s c m tx).2.m_clients = s.m_clients := by
  refine ⟨rfl, Map.find_erase_self _ _, ?_, fun k hk => Map.find_erase_ne _ _ _ hk,
    fun k hk => Map.find_insert_ne _ _ _ _ hk, fun w hw => Map.insert_of_some _ _ _ _ hw,
    rfl, rfl, rfl, rfl, rfl, rfl, rfl⟩
  show (Map.find (Map.insert s.m_mapApiRequests m c) m).isSome = true
  cases h : Map.find s.m_mapApiRequests m with
  | none => rw [Map.find_insert_of_none _ _ _ h]; rfl
  | some w => rw [Map.insert_of_some _ _ _ _ h, h]; rfl

/-- Witness for C19: client 1 proxies the network transaction `t1` of
`promotedDialog` with message id `m1`; the app-tx entry `t2` and the dialog
`d1` stay. -/
theorem proxy_request_frame_witness :
    Map.find (proxyRequest promotedDialog 1 "m1" "t1").2.m_mapNetTransactions "t1" = none ∧
    Map.find (proxyRequest promotedDialog 1 "m1" "t1").2.m_mapApiRequests "m1" = some 1 ∧
    (proxyRequest promotedDialog 1 "m1" "t1").2.m_mapAppTransactions = [("t2", 1)] ∧
    (proxyRequest promotedDialog 1 "m1" "t1").2.m_mapDialogs = [("d1", 2)] :=
  ⟨(proxy_request_frame promotedDialog 1 "m1" "t1").2.1, by decide,
    (proxy_request_frame promotedDialog 1 "m1" "t1").2.2.2.2.2.2.1,
    (proxy_request_frame promotedDialog 1 "m1" "t1").2.2.2.2.2.2.2.1⟩

/-- C20 as stated fails: for a start line that begins with `ACK` the transaction
id that `sendRequestInsideDialog` and `sendRequestOutsideDialog` return is not
recorded in the app-transaction index. -/
theorem ack_request_records_no_transaction :
    (sendRequestInsideDialog (fun _ => true) "u1" pendingApiRequest 1 "m2"
      "ACK sip:bob@example.com SIP/2.0").2.1 = "u1" ∧
    Map.find (sendRequestInsideDialog (fun _ => true) "u1" pendingApiRequest 1 "m2"
      "ACK sip:bob@example.com SIP/2.0").2.2.m_mapAppTransactions "u1" = none ∧
    (sendRequestOutsideDialog (fun _ => true) "u1" pendingApiRequest 1 "m2"
      "ACK sip:bob@example.com SIP/2.0").2.1 = "u1" ∧
    Map.find (sendRequestOutsideDialog (fun _ => true) "u1" pendingApiRequest 1 "m2"
      "ACK sip:bob@example.com SIP/2.0").2.2.m_mapAppTransactions "u1" = none := by
  decide

/-- C20, amended: `sendRequestInsideDialog` and `sendRequestOutsideDialog` return
the minted transaction id and hand the SIP engine a controller in which the
message id `m` is in the api-request index (bound to `c` if it was not bound
before) and in which, for a start line that does not begin with `ACK` and a
transaction id not in use, the transaction id is bound to `c` in the
app-transaction index; for a start line that begins with `ACK` the
app-transaction index is as before. -/
theorem request_recorded_before_dispatch (engine : ClientController → Bool) (uuid : String)
    (s : ClientController) (c : ClientId) (m startLine : String) :
    ∃ s2, sendRequestInsideDialog engine uuid s c m startLine = (engine s2, uuid, s2) ∧
      sendRequestOutsideDialog engine uuid s c m startLine = (engine s2, uuid, s2) ∧
      (Map.find s2.m_mapApiRequests m).isSome = true ∧
      (Map.find s.m_mapApiRequests m = none → Map.find s2.m_mapApiRequests m = some c) ∧
      (¬ "ACK".data <+: startLine.data → Map.find s.m_mapAppTransactions uuid = none →
        Map.find s2.m_mapAppTransactions uuid = some c) ∧
      ("ACK".data <+: startLine.data → s2.m_mapAppTransactions = s.m_mapAppTransactions) := by
  refine ⟨_, rfl, rfl, ?_, ?_, ?_, ?_⟩
  · show (Map.find (Map.insert _ m c) m).isSome = true
    generalize (if str_find startLine "ACK" ≠ some 0 then addAppTransaction s c uuid
      else s).m_mapApiRequests = t
    cases h : Map.find t m with
    | none => rw [Map.find_insert_of_none _ _ _ h]; rfl
    | some w => rw [Map.insert_of_some _ _ _ _ h, h]; rfl
  · intro hfree
    show Map.find (Map.insert _ m c) m = some c
    apply Map.find_insert_of_none
    split <;> exact hfree
  · intro hack hfresh
    have hne : str_find startLine "ACK" ≠ some 0 :=
      fun h => hack ((str_find_eq_zero_iff startLine "ACK").mp h)
    show Map.find (if str_find startLine "ACK" ≠ some 0 then addAppTransaction s c uuid
      else s).m_mapAppTransactions uuid = some c
    rw [if_pos hne]
    exact Map.find_insert_of_none _ _ _ hfresh
  · intro hack
    have heq : str_find startLine "ACK" = some 0 := (str_find_eq_zero_iff startLine "ACK").mpr hack
    show (if str_find startLine "ACK" ≠ some 0 then addAppTransaction s c uuid
      else s).m_mapAppTransactions = s.m_mapAppTransactions
    rw [if_neg (fun h => h heq)]

/-- Witness for C20 (amended): client 1 sends an INVITE with message id `m2`; the
minted id `u1` is bound to client 1 in the app-transaction index. -/
theorem request_recorded_before_dispatch_witness :
    ∃ s2, sendRequestInsideDialog (fun _ => true) "u1" pendingApiRequest 1 "m2"
        "INVITE sip:bob@example.com SIP/2.0" = (true, "u1", s2) ∧
      Map.find s2.m_mapApiRequests "m2" = some 1 ∧
      Map.find s2.m_mapAppTransactions "u1" = some 1 := by
  obtain ⟨s2, h1, _, _, h4, h5, _⟩ := request_recorded_before_dispatch (fun _ => true) "u1"
    pendingApiRequest 1 "m2" "INVITE sip:bob@example.com SIP/2.0"
  exact ⟨s2, h1, h4 (by decide), h5 (by decide) (by decide)⟩

/-! ## Responses, ACK and requests inside a dialog -/

/-- C15, evaluated on the code: client 1 opens the application transaction `t1`
and disconnects; the final response with status 200 for `t1` is not delivered,
`route_response_inside_transaction` returns false and the app-tx table still
holds `t1`. With client 1 connected the same response is delivered and the
entry is removed. -/
theorem final_response_leaves_binding_of_dead_client :
    route_response_inside_transaction
        (leave (addAppTransaction (join ClientController.empty 1) 1 "t1") 1)
        "SIP/2.0 200 OK" "meta" "INVITE" 200 "t1" "d1"
      = (false, [], leave (addAppTransaction (join ClientController.empty 1) 1 "t1") 1) ∧
    Map.find (leave (addAppTransaction (join ClientController.empty 1) 1 "t1")
      1).m_mapAppTransactions "t1" = some 1 ∧
    Map.find (route_response_inside_transaction
        (addAppTransaction (join ClientController.empty 1) 1 "t1")
        "SIP/2.0 200 OK" "meta" "INVITE" 200 "t1" "d1").2.2.m_mapAppTransactions "t1" = none := by
  decide

/-- C17, evaluated on the code: client 1 holds the network transaction `t1` of an
INVITE and disconnects; the ACK for `t1` on the unbound dialog `d1` finds no
client, `route_ack_request_inside_dialog` returns false and the net-tx map
still holds `t1`. -/
theorem undelivered_ack_leaves_net_transaction :
    route_ack_request_inside_dialog
        (leave (addNetTransaction (join ClientController.empty 1) 1 "t1") 1) 0
        "ACK sip:a SIP/2.0" "meta" "t2" "t1" "d1"
      = some (false, [], leave (addNetTransaction (join ClientController.empty 1) 1 "t1") 1) ∧
    Map.find (leave (addNetTransaction (join ClientController.empty 1) 1 "t1")
      1).m_mapNetTransactions "t1" = some 1 := by
  decide

/-- C16: `route_ack_request_inside_dialog` posts the ACK to the client that
`findClientForDialog` yields; when that yields none, to the live client the
net-tx map gives for the INVITE's transaction id; it returns false, posting
nothing, exactly when neither exists; and every net-tx entry present afterwards
was present before. -/
theorem ack_routing (s : ClientController) (rnd : Nat)
    (raw metaData tx inviteTx d : String) :
    (∀ c s1, findClientForDialog s rnd d = some (some c, s1) →
      route_ack_request_inside_dialog s rnd raw metaData tx inviteTx d
        = some (true, [Posted.sendSipMessageToClient c tx d raw metaData],
            removeNetTransaction s inviteTx)) ∧
    (∀ c s1, findClientForDialog s rnd d = some (none, s1) →
      findClientForNetTransaction s inviteTx = some c →
      route_ack_request_inside_dialog s rnd raw metaData tx inviteTx d
        = some (true, [Posted.sendSipMessageToClient c tx d raw metaData],
            removeNetTransaction s inviteTx)) ∧
    (∀ s1, findClientForDialog s rnd d = some (none, s1) →
      findClientForNetTransaction s inviteTx = none →
      route_ack_request_inside_dialog s rnd raw metaData tx inviteTx d = some (false, [], s)) ∧
    (∀ rc posted s2,
      route_ack_request_inside_dialog s rnd raw metaData tx inviteTx d = some (rc, posted, s2) →
      ∀ k v, Map.find s2.m_mapNetTransactions k = some v →
        Map.find s.m_mapNetTransactions k = some v) := by
  have h1 : ∀ c s1, findClientForDialog s rnd d = some (some c, s1) →
      route_ack_request_inside_dialog s rnd raw metaData tx inviteTx d
        = some (true, [Posted.sendSipMessageToClient c tx d raw metaData],
            removeNetTransaction s inviteTx) := by
    intro c s1 h
    have hs : s1 = s := (findClientForDialog_frame s s1 rnd d _ h).1
    subst hs
    unfold route_ack_request_inside_dialog
    simp only [h]
  have h2 : ∀ c s1, findClientForDialog s rnd d = some (none, s1) →
      findClientForNetTransaction s inviteTx = some c →
      route_ack_request_inside_dialog s rnd raw metaData tx inviteTx d
        = some (true, [Posted.sendSipMessageToClient c tx d raw metaData],
            removeNetTransaction s inviteTx) := by
    intro c s1 h hnet
    have hs : s1 = s := (findClientForDialog_frame s s1 rnd d _ h).1
    subst hs
    unfold route_ack_request_inside_dialog
    simp only [h, hnet]
  have h3 : ∀ s1, findClientForDialog s rnd d = some (none, s1) →
      findClientForNetTransaction s inviteTx = none →
      route_ack_request_inside_dialog s rnd raw metaData tx inviteTx d = some (false, [], s) := by
    intro s1 h hnet
    have hs : s1 = s := (findClientForDialog_frame s s1 rnd d _ h).1
    subst hs
    unfold route_ack_request_inside_dialog
    simp only [h, hnet]
  refine ⟨h1, h2, h3, ?_⟩
  intro rc posted s2 hcall k v hk
  cases hfind : findClientForDialog s rnd d with
  | none =>
    unfold route_ack_request_inside_dialog at hcall
    simp only [hfind] at hcall
    cases hcall
  | some r =>
    obtain ⟨found, s1⟩ := r
    cases found with
    | some c =>
      rw [h1 c s1 hfind] at hcall
      cases hcall
      exact Map.find_erase_some _ _ _ _ hk
    | none =>
      cases hnet : findClientForNetTransaction s inviteTx with
      | some c =>
        rw [h2 c s1 hfind hnet] at hcall
        cases hcall
        exact Map.find_erase_some _ _ _ _ hk
      | none =>
        rw [h3 s1 hfind hnet] at hcall
        cases hcall
        exact hk

/-- Witness for C16: in `promotedDialog` the ACK on dialog `d1` goes to client 2,
the client bound to the dialog; the ACK on the unbound dialog `d9` goes to
client 1 through the INVITE's net-tx entry `t1`; without such an entry the call
returns false. -/
theorem ack_routing_witness :
    route_ack_request_inside_dialog promotedDialog 0 "ACK" "meta" "t5" "t1" "d1"
      = some (true, [Posted.sendSipMessageToClient 2 "t5" "d1" "ACK" "meta"],
          removeNetTransaction promotedDialog "t1") ∧
    route_ack_request_inside_dialog promotedDialog 0 "ACK" "meta" "t5" "t1" "d9"
      = some (true, [Posted.sendSipMessageToClient 1 "t5" "d9" "ACK" "meta"],
          removeNetTransaction promotedDialog "t1") ∧
    route_ack_request_inside_dialog promotedDialog 0 "ACK" "meta" "t5" "t9" "d9"
      = some (false, [], promotedDialog) :=
  ⟨(ack_routing promotedDialog 0 "ACK" "meta" "t5" "t1" "d1").1 2 promotedDialog (by decide),
    (ack_routing promotedDialog 0 "ACK" "meta" "t5" "t1" "d9").2.1 1 promotedDialog (by decide)
      (by decide),
    (ack_routing promotedDialog 0 "ACK" "meta" "t5" "t9" "d9").2.2.1 promotedDialog (by decide)
      (by decide)⟩

/-- After `removeDialog` the dialog table has no entry for the dialog. -/
theorem removeDialog_unbinds (s : ClientController) (d : String) :
    Map.find (removeDialog s d).m_mapDialogs d = none := by
  unfold removeDialog
  cases h : Map.find s.m_mapDialogs d with
  | none => exact h
  | some w => exact Map.find_erase_self _ _

/-- C18: when `findClientForDialog` yields no client, `route_request_inside_dialog`
returns false, posts nothing and leaves the controller as it was. When it
yields a client and the transaction id is not bound yet, the call returns true,
posts the request to that client and binds the transaction id to it in the
net-tx map; the dialog table loses its entry for the dialog when the method is
`BYE` and is left as it was for every other method. -/
theorem request_inside_dialog_routing (s : ClientController) (rnd : Nat)
    (raw metaData method tx d : String) :
    (∀ s1, findClientForDialog s rnd d = some (none, s1) →
      route_request_inside_dialog s rnd raw metaData method tx d = some (false, [], s)) ∧
    (∀ c s1, findClientForDialog s rnd d = some (some c, s1) →
      Map.find s.m_mapNetTransactions tx = none →
      ∃ s2, route_request_inside_dialog s rnd raw metaData method tx d
          = some (true, [Posted.sendSipMessageToClient c tx d raw metaData], s2) ∧
        Map.find s2.m_mapNetTransactions tx = some c ∧
        (method = "BYE" → Map.find s2.m_mapDialogs d = none) ∧
        (method ≠ "BYE" → s2.m_mapDialogs = s.m_mapDialogs)) := by
  refine ⟨?_, ?_⟩
  · intro s1 h
    have hs : s1 = s := (findClientForDialog_frame s s1 rnd d _ h).1
    subst hs
    unfold route_request_inside_dialog
    simp only [h]
  · intro c s1 h hfree
    have hs : s1 = s := (findClientForDialog_frame s s1 rnd d _ h).1
    subst hs
    unfold route_request_inside_dialog
    simp only [h]
    refine ⟨_, rfl, ?_, ?_, ?_⟩
    · have hnet : Map.find (addNetTransaction s1 c tx).m_mapNetTransactions tx = some c :=
        Map.find_insert_of_none _ _ _ hfree
      split
      · unfold removeDialog
        split
        · exact hnet
        · exact hnet
      · exact hnet
    · intro hbye
      rw [if_pos hbye]
      exact removeDialog_unbinds _ _
    · intro hbye
      rw [if_neg hbye]
      rfl

/-- Witness for C18: a BYE on dialog `d1` of `promotedDialog` goes to client 2 and
removes the dialog; an INFO leaves it; a request on the unbound dialog `d9`
returns false. -/
theorem request_inside_dialog_routing_witness :
    (∃ s2, route_request_inside_dialog promotedDialog 0 "BYE sip:a" "meta" "BYE" "t7" "d1"
        = some (true, [Posted.sendSipMessageToClient 2 "t7" "d1" "BYE sip:a" "meta"], s2) ∧
      Map.find s2.m_mapNetTransactions "t7" = some 2 ∧
      ("BYE" = "BYE" → Map.find s2.m_mapDialogs "d1" = none) ∧
      ("BYE" ≠ "BYE" → s2.m_mapDialogs = promotedDialog.m_mapDialogs)) ∧
    (∃ s2, route_request_inside_dialog promotedDialog 0 "INFO sip:a" "meta" "INFO" "t7" "d1"
        = some (true, [Posted.sendSipMessageToClient 2 "t7" "d1" "INFO sip:a" "meta"], s2) ∧
      Map.find s2.m_mapNetTransactions "t7" = some 2 ∧
      ("INFO" = "BYE" → Map.find s2.m_mapDialogs "d1" = none) ∧
      ("INFO" ≠ "BYE" → s2.m_mapDialogs = promotedDialog.m_mapDialogs)) ∧
    route_request_inside_dialog promotedDialog 0 "INFO sip:a" "meta" "INFO" "t7" "d9"
      = some (false, [], promotedDialog) :=
  ⟨(request_inside_dialog_routing promotedDialog 0 "BYE sip:a" "meta" "BYE" "t7" "d1").2 2
      promotedDialog (by decide) (by decide),
    (request_inside_dialog_routing promotedDialog 0 "INFO sip:a" "meta" "INFO" "t7" "d1").2 2
      promotedDialog (by decide) (by decide),
    (request_inside_dialog_routing promotedDialog 0 "INFO sip:a" "meta" "INFO" "t7" "d9").1
      promotedDialog (by decide)⟩

/-! ## Decimal length prefixes -/

/-- The value that `lexical_cast` reads from a run of digits. -/
theorem lexical_cast_append_digit (l : List Char) (c : Char) :
    List.foldl (fun acc c => 10 * acc + (c.toNat - 48)) 0 (l ++ [c])
      = 10 * List.foldl (fun acc c => 10 * acc + (c.toNat - 48)) 0 l + (c.toNat - 48) := by
  rw [List.foldl_append]
  rfl

/-- A decimal digit character is a digit, is not `#` and has the digit as its
value. -/
theorem digitChar_spec (d : Nat) (h : d < 10) :
    (Nat.digitChar d).isDigit = true ∧ Nat.digitChar d ≠ '#' ∧ (Nat.digitChar d).toNat - 48 = d := by
  interval_cases d <;> decide

/-- The digits produced for `n`: in front of the accumulator stands a non-empty
run of decimal digits whose value is `n` and which has at most `k + 1` digits
when `n < 10 ^ (k + 1)`. -/
theorem toDigitsCore_spec :
    ∀ (fuel n : Nat) (ds : List Char), n < fuel →
      ∃ l, Nat.toDigitsCore 10 fuel n ds = l ++ ds ∧ l ≠ [] ∧
        (∀ c ∈ l, c.isDigit = true ∧ c ≠ '#') ∧
        List.foldl (fun acc c => 10 * acc + (c.toNat - 48)) 0 l = n ∧
        ∀ k, n < 10 ^ (k + 1) → l.length ≤ k + 1 := by
  intro fuel
  induction fuel with
  | zero => intro n ds h; omega
  | succ fuel ih =>
    intro n ds h
    have hd := digitChar_spec (n % 10) (Nat.mod_lt _ (by decide))
    unfold Nat.toDigitsCore
    simp only
    by_cases h0 : n / 10 = 0
    · rw [if_pos h0]
      refine ⟨[Nat.digitChar (n % 10)], rfl, by simp, ?_, ?_, ?_⟩
      · intro c hc
        rw [List.mem_singleton] at hc
        rw [hc]
        exact ⟨hd.1, hd.2.1⟩
      · simp only [List.foldl_cons, List.foldl_nil, Nat.mul_zero, Nat.zero_add]
        rw [hd.2.2]
        omega
      · intro k _
        simp
    · rw [if_neg h0]
      obtain ⟨l, hl, _, hdig, hval, hlen⟩ := ih (n / 10) (Nat.digitChar (n % 10) :: ds) (by omega)
      refine ⟨l ++ [Nat.digitChar (n % 10)], ?_, by simp, ?_, ?_, ?_⟩
      · rw [hl]
        simp
      · intro c hc
        rw [List.mem_append, List.mem_singleton] at hc
        rcases hc with hc | hc
        · exact hdig c hc
        · rw [hc]
          exact ⟨hd.1, hd.2.1⟩
      · rw [lexical_cast_append_digit, hval, hd.2.2]
        omega
      · intro k hk
        cases k with
        | zero => omega
        | succ k =>
          have := hlen k (by
            rw [Nat.pow_succ] at hk
            omega)
          simp only [List.length_append, List.length_singleton]
          omega

/-- The decimal rendering of `n` is a non-empty run of digits, none of them `#`,
that `lexical_cast` reads back as `n`; it has at most five digits for
`n < 100000`. -/
theorem decimal_spec (n : Nat) :
    decimal n ≠ [] ∧ (∀ c ∈ decimal n, c.isDigit = true ∧ c ≠ '#') ∧
      lexical_cast (decimal n) = some n ∧ (n < 100000 → (decimal n).length ≤ 5) := by
  obtain ⟨l, hl, hne, hdig, hval, hlen⟩ := toDigitsCore_spec (n + 1) n [] (by omega)
  have heq : decimal n = l := by
    unfold decimal Nat.toDigits
    rw [hl, List.append_nil]
  rw [heq]
  refine ⟨hne, hdig, ?_, fun h => hlen 4 (by omega)⟩
  unfold lexical_cast
  rw [if_neg hne, hval]

/-- One pass of the digit loop over a digit. -/
theorem readLoop_digit (d : Char) (rest ch : List Char) (h1 : d.isDigit = true)
    (h2 : d ≠ '#') :
    readLoop (d :: rest) ch =
      if rest ≠ [] ∧ (ch ++ [d]).length < 6 then readLoop rest (ch ++ [d])
      else LoopExit.done d rest (ch ++ [d]) := by
  have h3 : (!d.isDigit) = false := by rw [h1]; rfl
  rw [readLoop, if_neg h2, h3]
  rfl

/-- The digit loop on a run of at most five digits that is followed by `#`: it
stops at the `#` with the digits collected. -/
theorem readLoop_digits_hash (rest : List Char) :
    ∀ (ds ch : List Char), (∀ c ∈ ds, c.isDigit = true ∧ c ≠ '#') →
      ch.length + ds.length ≤ 5 →
      readLoop (ds ++ '#' :: rest) ch = LoopExit.done '#' rest (ch ++ ds) := by
  intro ds
  induction ds with
  | nil =>
    intro ch _ _
    simp [readLoop]
  | cons d ds ih =>
    intro ch hdig hlen
    have hd := hdig d (List.mem_cons_self _ _)
    simp only [List.length_cons] at hlen
    have hrec := ih (ch ++ [d]) (fun c hc => hdig c (List.mem_cons_of_mem _ hc))
      (by simp only [List.length_append, List.length_singleton]; omega)
    rw [List.cons_append, readLoop_digit d _ ch hd.1 hd.2]
    rw [if_pos ⟨by simp, by simp only [List.length_append, List.length_singleton]; omega⟩, hrec]
    simp

/-- The digit loop on a buffer that holds nothing but one to five digits: it
uses the buffer up and the last character read is not `#`. -/
theorem readLoop_digits_only :
    ∀ (ds ch : List Char), ds ≠ [] → (∀ c ∈ ds, c.isDigit = true ∧ c ≠ '#') →
      ch.length + ds.length ≤ 5 →
      ∃ c, c ≠ '#' ∧ readLoop ds ch = LoopExit.done c [] (ch ++ ds) := by
  intro ds
  induction ds with
  | nil => intro ch h; exact absurd rfl h
  | cons d ds ih =>
    intro ch _ hdig hlen
    have hd := hdig d (List.mem_cons_self _ _)
    simp only [List.length_cons] at hlen
    rw [readLoop_digit d _ ch hd.1 hd.2]
    by_cases hnil : ds = []
    · subst hnil
      rw [if_neg (by simp)]
      exact ⟨d, hd.2, rfl⟩
    · rw [if_pos ⟨hnil, by simp only [List.length_append, List.length_singleton]; omega⟩]
      obtain ⟨c, hc, hrec⟩ := ih (ch ++ [d]) hnil
        (fun c hc => hdig c (List.mem_cons_of_mem _ hc))
        (by simp only [List.length_append, List.length_singleton]; omega)
      exact ⟨c, hc, by rw [hrec]; simp⟩

/-- The digit loop on a buffer that begins with six digits leaves with six digits
collected. -/
theorem readLoop_six_digits (rest : List Char) :
    ∀ (ds ch : List Char), ds ≠ [] → (∀ c ∈ ds, c.isDigit = true ∧ c ≠ '#') →
      ch.length + ds.length = 6 →
      ∃ c b ch2, readLoop (ds ++ rest) ch = LoopExit.done c b ch2 ∧ ch2.length = 6 := by
  intro ds
  induction ds with
  | nil => intro ch h; exact absurd rfl h
  | cons d ds ih =>
    intro ch _ hdig hlen
    have hd := hdig d (List.mem_cons_self _ _)
    simp only [List.length_cons] at hlen
    rw [List.cons_append, readLoop_digit d _ ch hd.1 hd.2]
    by_cases hnil : ds = []
    · subst hnil
      have hsix : ¬ (ch ++ [d]).length < 6 := by
        simp only [List.length_append, List.length_singleton, List.length_nil] at hlen ⊢
        omega
      rw [if_neg (fun h => hsix h.2)]
      refine ⟨d, _, _, rfl, ?_⟩
      simp only [List.length_append, List.length_singleton, List.length_nil] at hlen ⊢
      omega
    · have hds : 0 < ds.length := List.length_pos.mpr hnil
      rw [if_pos ⟨by
        intro h
        rw [List.append_eq_nil] at h
        exact hnil h.1, by simp only [List.length_append, List.length_singleton]; omega⟩]
      exact ih (ch ++ [d]) hnil (fun c hc => hdig c (List.mem_cons_of_mem _ hc))
        (by simp only [List.length_append, List.length_singleton]; omega)

/-- A prefix of one to five digits followed by `#` is read as its decimal value;
`continueOn` tells whether bytes follow the `#`. -/
theorem readMessageLength_value (ds rest : List Char) (n : Nat)
    (hdig : ∀ c ∈ ds, c.isDigit = true ∧ c ≠ '#') (hlen : ds.length ≤ 5)
    (hval : lexical_cast ds = some n) :
    readMessageLength (ds ++ '#' :: rest) = LengthResult.value (decide (rest ≠ [])) n rest := by
  unfold readMessageLength
  rw [readLoop_digits_hash rest ds [] hdig (by simpa using hlen)]
  simp only [List.nil_append]
  rw [if_neg (by omega)]
  by_cases hr : rest = []
  · subst hr
    simp [hval]
  · rw [if_neg hr, hval]
    simp [hr]

/-- A buffer that holds nothing but one to five digits is left as it was, with
`len = 0` and `continueOn = false`. -/
theorem readMessageLength_incomplete (ds : List Char) (hne : ds ≠ [])
    (hdig : ∀ c ∈ ds, c.isDigit = true ∧ c ≠ '#') (hlen : ds.length ≤ 5) :
    readMessageLength ds = LengthResult.value false 0 ds := by
  obtain ⟨c, hc, hloop⟩ := readLoop_digits_only ds [] hne hdig (by simpa using hlen)
  unfold readMessageLength
  rw [hloop]
  simp only [List.nil_append]
  rw [if_neg (by omega)]
  simp [hc]

/-- Six digits at the head of the buffer make `readMessageLength` throw. -/
theorem readMessageLength_six_digits (ds rest : List Char)
    (hdig : ∀ c ∈ ds, c.isDigit = true ∧ c ≠ '#') (hlen : ds.length = 6) :
    readMessageLength (ds ++ rest) = LengthResult.thrown := by
  have hne : ds ≠ [] := by
    intro h
    rw [h] at hlen
    cases hlen
  obtain ⟨c, b, ch2, h, h6⟩ := readLoop_six_digits rest ds [] hne hdig (by simpa using hlen)
  unfold readMessageLength
  rw [h]
  simp [h6]

/-! ## Decoding a stream of frames -/

/-- Inserting what fits leaves the buffer content followed by the new bytes. -/
theorem ringInsert_fits (capacity : Nat) (buffer data : List Char)
    (h : buffer.length + data.length ≤ capacity) :
    ringInsert capacity buffer data = buffer ++ data := by
  unfold ringInsert
  have h0 : (buffer ++ data).length - capacity = 0 := by
    rw [List.length_append]
    omega
  rw [h0, List.drop_zero]

/-- Six digits in front of the unread bytes, the first of them held in the buffer
as a partial length: whatever the read boundaries, the session is left at the
read that brings the sixth digit and no frame is handed over. -/
theorem feed_six_digits {σ : Type} (handle : σ → String → Bool × σ) (st : σ)
    (ds rest : List Char) (hdig : ∀ c ∈ ds, c.isDigit = true ∧ c ≠ '#') (hlen : ds.length = 6) :
    ∀ (reads : List (List Char)) (this : Client), (∀ r ∈ reads, r ≠ []) →
      this.m_nMessageLength = 0 → this.m_buffer.length ≤ 5 →
      this.m_buffer ++ received reads = ds ++ rest →
      this.m_buffer.length + (received reads).length ≤ this.capacity →
      feed handle st this reads = ReadResult.left [] st := by
  intro reads
  induction reads with
  | nil =>
    intro this _ _ hbuf hstream _
    exfalso
    have h := congrArg List.length hstream
    simp only [received, List.append_nil, List.length_append] at h
    omega
  | cons r reads ih =>
    intro this hne hzero hbuf hstream hfits
    have hr := hne r (List.mem_cons_self _ _)
    simp only [received] at hstream hfits
    rw [List.length_append] at hfits
    rw [← List.append_assoc] at hstream
    have hW : this.m_buffer ++ r ≠ [] := by
      intro h
      rw [List.append_eq_nil] at h
      exact hr h.2
    have hins : ringInsert this.capacity this.m_buffer r = this.m_buffer ++ r :=
      ringInsert_fits _ _ _ (by omega)
    unfold feed read_handler
    simp only [Bool.false_eq_true, if_false, hins, hzero, if_true]
    rcases List.append_eq_append_iff.mp hstream with ⟨a, ha1, _⟩ | ⟨c, hc1, _⟩
    · by_cases ha : a = []
      · subst ha
        rw [List.append_nil] at ha1
        have h6 := readMessageLength_six_digits ds [] hdig hlen
        rw [List.append_nil, ha1] at h6
        rw [h6]
        rfl
      · have hshort : (this.m_buffer ++ r).length ≤ 5 := by
          have h := congrArg List.length ha1
          rw [List.length_append] at h
          have := List.length_pos.mpr ha
          omega
        have hpart := readMessageLength_incomplete (this.m_buffer ++ r) hW
          (fun c hc => hdig c (by rw [ha1]; exact List.mem_append_left _ hc)) hshort
        rw [hpart]
        simp only [if_true, ReadResult.andThen]
        rw [ih { this with m_buffer := this.m_buffer ++ r, m_nMessageLength := 0 }
          (fun t ht => hne t (List.mem_cons_of_mem _ ht)) rfl hshort hstream
          (by simp only [List.length_append]; omega)]
        rfl
    · rw [hc1, readMessageLength_six_digits ds c hdig hlen]
      rfl

/-- C23: `readMessageLength` reads a prefix of one to five decimal digits
followed by `#` as its decimal value, which becomes the frame length (for a
number below 100000 written by `Client::send`, that number); and when six
decimal digits stand in front of any `#`, the session is left without a frame
being handed over, however the digits are split across reads. -/
theorem length_prefix_digits {σ : Type} (handle : σ → String → Bool × σ) (st : σ) :
    (∀ ds rest : List Char, ds ≠ [] → (∀ c ∈ ds, c.isDigit = true) → ds.length ≤ 5 →
      readMessageLength (ds ++ '#' :: rest) = LengthResult.value (decide (rest ≠ []))
        (List.foldl (fun acc c => 10 * acc + (c.toNat - 48)) 0 ds) rest) ∧
    (∀ (n : Nat) (rest : List Char), n < 100000 →
      readMessageLength (decimal n ++ '#' :: rest)
        = LengthResult.value (decide (rest ≠ [])) n rest) ∧
    (∀ ds rest : List Char, (∀ c ∈ ds, c.isDigit = true) → ds.length = 6 →
      readMessageLength (ds ++ rest) = LengthResult.thrown) ∧
    (∀ (ds rest : List Char) (reads : List (List Char)), (∀ c ∈ ds, c.isDigit = true) →
      ds.length = 6 → (∀ r ∈ reads, r ≠ []) → received reads = ds ++ rest →
      (received reads).length ≤ Client.fresh.capacity →
      feed handle st Client.fresh reads = ReadResult.left [] st) := by
  have hhash : ∀ ds : List Char, (∀ c ∈ ds, c.isDigit = true) →
      ∀ c ∈ ds, c.isDigit = true ∧ c ≠ '#' := by
    intro ds h c hc
    refine ⟨h c hc, ?_⟩
    intro heq
    have := h c hc
    rw [heq] at this
    exact absurd this (by decide)
  refine ⟨?_, ?_, ?_, ?_⟩
  · intro ds rest hne hdig hlen
    exact readMessageLength_value ds rest _ (hhash ds hdig) hlen (by
      unfold lexical_cast
      rw [if_neg hne])
  · intro n rest hn
    obtain ⟨_, hdig, hval, hlen⟩ := decimal_spec n
    exact readMessageLength_value _ rest n hdig (hlen hn) hval
  · intro ds rest hdig hlen
    exact readMessageLength_six_digits ds rest (hhash ds hdig) hlen
  · intro ds rest reads hdig hlen hreads hstream hfits
    exact feed_six_digits handle st ds rest (hhash ds hdig) hlen reads Client.fresh hreads rfl
      (by decide) (by simpa [Client.fresh] using hstream) (by simpa [Client.fresh] using hfits)

/-- Witness for C23: `12345#` gives length 12345; the digits `123456`, received as
`123` and `456`, end the session. -/
theorem length_prefix_digits_witness :
    readMessageLength "12345#abc".data = LengthResult.value true 12345 "abc".data ∧
    feed acceptAll () Client.fresh ["123".data, "456".data] = ReadResult.left [] () :=
  ⟨(length_prefix_digits acceptAll ()).1 "12345".data "abc".data (by decide) (by decide)
      (by decide),
    (length_prefix_digits acceptAll ()).2.2.2 "123456".data [] ["123".data, "456".data]
      (by decide) (by decide) (by decide) (by decide) (by decide)⟩

/-- C25: for a message whose meta tokens are the id, `authenticate` and a secret,
`processClientMessage` returns true with the response
`<uuid>|response|<id>|OK|<h>`, `h` being the host:port list joined by `,`, when
the secret is the process secret, and false with
`<uuid>|response|<id>|NO|incorrect secret` otherwise; the controller is not
touched. -/
theorem authenticate_response (env : Env) (s : ClientController) (self : ClientId)
    (msg msgId secret : String) (more : List String)
    (htokens : env.splitTokens (env.splitMsg msg).1 = msgId :: "authenticate" :: secret :: more) :
    (secret = env.secret →
      processClientMessage env s self msg = Outcome.returned ⟨true,
        env.generateUuid 0 ++ "|response|" ++ msgId ++ "|" ++ "OK" ++
          ("|" ++ String.intercalate "," env.hostports), none, s⟩) ∧
    (secret ≠ env.secret →
      processClientMessage env s self msg = Outcome.returned ⟨false,
        env.generateUuid 0 ++ "|response|" ++ msgId ++ "|" ++ "NO" ++ ("|" ++ "incorrect secret"),
        none, s⟩) := by
  have hlen : ¬ (msgId :: "authenticate" :: secret :: more).length < 2 := by
    simp only [List.length_cons]
    omega
  refine ⟨fun hs => ?_, fun hs => ?_⟩
  · unfold processClientMessage
    simp only [htokens, if_neg hlen, List.get?]
    rw [if_pos trivial, if_neg (show ¬ (secret ≠ env.secret) from fun h => h hs)]
    rfl
  · unfold processClientMessage
    simp only [htokens, if_neg hlen, List.get?]
    rw [if_pos trivial, if_pos hs]
    rfl

/-- Witness for C25: the messages `m1|authenticate|secret` and
`m1|authenticate|guess` in the example environment. -/
theorem authenticate_response_witness :
    processClientMessage sampleEnv ClientController.empty 1 "m1|authenticate|secret"
      = Outcome.returned ⟨true, "uuid0|response|m1|OK|10.0.0.1:5060", none,
          ClientController.empty⟩ ∧
    processClientMessage sampleEnv ClientController.empty 1 "m1|authenticate|guess"
      = Outcome.returned ⟨false, "uuid0|response|m1|NO|incorrect secret", none,
          ClientController.empty⟩ :=
  ⟨(authenticate_response sampleEnv ClientController.empty 1 "m1|authenticate|secret" "m1"
      "secret" [] (by decide)).1 (by decide),
    (authenticate_response sampleEnv ClientController.empty 1 "m1|authenticate|guess" "m1"
      "guess" [] (by decide)).2 (by decide)⟩

/-- A message whose second token is `authenticate` leaves the controller as it
was whenever `processClientMessage` returns. -/
theorem authenticate_leaves_controller (env : Env) (s : ClientController) (self : ClientId)
    (msg msgId : String) (more : List String) (handled : Handled)
    (htokens : env.splitTokens (env.splitMsg msg).1 = msgId :: "authenticate" :: more)
    (hret : processClientMessage env s self msg = Outcome.returned handled) :
    handled.controller = s ∧ handled.command = none := by
  have hlen : ¬ (msgId :: "authenticate" :: more).length < 2 := by
    simp only [List.length_cons]
    omega
  unfold processClientMessage at hret
  simp only [htokens, if_neg hlen, List.get?] at hret
  rw [if_pos trivial] at hret
  cases more with
  | nil => simp only [List.get?] at hret; cases hret
  | cons secret rest =>
    simp only [List.get?] at hret
    by_cases hs : secret ≠ env.secret
    · rw [if_pos hs] at hret
      cases hret
      exact ⟨rfl, rfl⟩
    · rw [if_neg hs] at hret
      cases hret
      exact ⟨rfl, rfl⟩

/-- C26 fails in the dialog-failover scenario: client 2 sends
`m2|authenticate|secret|voicemail`; `processClientMessage` answers OK and returns
true, yet the controller is as before: no entry of the named-service index
names client 2, and a request on dialog `d1` finds no client whatever `rand()`
gives. -/
theorem authenticate_registers_no_service :
    processClientMessage sampleEnv failoverPending 2 "m2|authenticate|secret|voicemail"
      = Outcome.returned ⟨true, "uuid0|response|m2|OK|10.0.0.1:5060", none, failoverPending⟩ ∧
    failoverPending.m_services = [("voicemail", 1)] ∧
    (∀ rnd, Option.map Prod.fst (findClientForDialog failoverPending rnd "d1") = some none) ∧
    (∀ rnd, Option.map Prod.fst
      (findClientForDialog (addNamedService failoverPending 2 "voicemail") rnd "d1")
        = some (some 2)) := by
  refine ⟨by decide, rfl, fun rnd => ?_, fun rnd => ?_⟩
  · have h : findClientForDialog failoverPending rnd "d1"
        = failoverLoop failoverPending "voicemail" 1 0 (rnd % 1) := rfl
    rw [h, Nat.mod_one]
    decide
  · have h : findClientForDialog (addNamedService failoverPending 2 "voicemail") rnd "d1"
        = failoverLoop (addNamedService failoverPending 2 "voicemail") "voicemail" 2 1
            (rnd % 2) := rfl
    rw [h]
    rcases Nat.mod_two_eq_zero_or_one rnd with h0 | h1
    · rw [h0]
      decide
    · rw [h1]
      decide

/-- C27 fails on a new session: its state is `initial` and no `authenticate` has
been received, yet the read `15#m1|route|invite` is handed to
`processClientMessage`, which registers client 1 for `invite` and answers OK;
a `sip` message is dispatched to the engine and recorded, and so is a `proxy`
message. `processClientMessage` does not look at the state of the session. -/
theorem route_accepted_before_authenticate :
    Client.fresh.m_state = SessionState.initial ∧
    Client.read_handler sampleEnv 1 (join ClientController.empty 1) Client.fresh false
        "15#m1|route|invite".data
      = ReadResult.reading ["m1|route|invite"]
          { join ClientController.empty 1 with
            m_request_types := [("invite", 1)]
            m_map_of_request_type_offsets := [("invite", 0)] }
          Client.fresh ∧
    processClientMessage sampleEnv (join ClientController.empty 1) 1 "m1|route|invite"
      = Outcome.returned ⟨true, "uuid1|response|m1|OK", some (Command.wants_requests "invite"),
          { join ClientController.empty 1 with
            m_request_types := [("invite", 1)]
            m_map_of_request_type_offsets := [("invite", 0)] }⟩ ∧
    processClientMessage sampleEnv (join ClientController.empty 1) 1
        "m2|sip||\r\nINVITE sip:a SIP/2.0"
      = Outcome.returned ⟨true, "", some (Command.sendRequestOutsideDialog "m2"),
          { join ClientController.empty 1 with
            m_mapAppTransactions := [("uuid0", 1)]
            m_mapApiRequests := [("m2", 1)] }⟩ ∧
    processClientMessage sampleEnv (join ClientController.empty 1) 1
        "m3|proxy|t1|remainInDialog|fullResponse|followRedirects|simultaneous|5|30|sip:b"
      = Outcome.returned ⟨true, "",
          some (Command.proxyRequest "m3" "t1" true true true true "5" "30" ["sip:b"]),
          { join ClientController.empty 1 with m_mapApiRequests := [("m3", 1)] }⟩ := by
  decide

/-- C28 fails: for the `sip` message with transaction id `t1`, an empty dialog id
and the start line `INFO sip:a SIP/2.0`, which a client can send,
`processClientMessage` runs into its `assert(false)`; in a build without
assertions it returns true without a call into the controller. It does not go
on to the Call-ID and outside-dialog branches. -/
theorem request_in_transaction_asserts :
    processClientMessage sampleEnv (join ClientController.empty 1) 1
        "m1|sip|t1|\r\nINFO sip:a SIP/2.0" = Outcome.assertionFailed ∧
    processClientMessage sampleEnvNoAssert (join ClientController.empty 1) 1
        "m1|sip|t1|\r\nINFO sip:a SIP/2.0"
      = Outcome.returned ⟨true, "", none, join ClientController.empty 1⟩ := by
  decide

/-- A `sip` message with at least four tokens passes the assertion on the number
of tokens. -/
theorem processClientMessage_sip (env : Env) (s : ClientController) (self : ClientId)
    (msg msgId tx dlg : String) (more : List String)
    (htokens : env.splitTokens (env.splitMsg msg).1 = msgId :: "sip" :: tx :: dlg :: more) :
    processClientMessage env s self msg =
      processSipMessage env s self (msgId :: "sip" :: tx :: dlg :: more)
        (env.splitMsg msg).2.1 (env.splitMsg msg).2.2.1 := by
  have hlen : ¬ (msgId :: "sip" :: tx :: dlg :: more).length < 2 := by
    simp only [List.length_cons]
    omega
  have hlen4 : ¬ ((msgId :: "sip" :: tx :: dlg :: more).length < 4 ∧ env.ndebug = false) := by
    simp only [List.length_cons]
    omega
  unfold processClientMessage
  simp only [htokens, if_neg hlen, List.get?]
  rw [if_neg (by decide), if_neg (by decide), if_pos trivial, if_neg hlen4]

/-- The `sip` branch in general: for every `sip` message whose meta tokens are the
id, `sip`, a transaction id and a dialog id (and possibly more),
`processClientMessage` decides as follows. Start line begins with `SIP/`: NO `transaction id missing`
and false for an empty transaction id, else `respondToSipRequest`. Else dialog
id non-empty: `sendRequestInsideDialog`. Else transaction id non-empty: start
line begins with `CANCEL`: `sendCancelRequest`; otherwise the assertion fails
(without assertions: true is returned and no call is made). Else the Call-ID is
that of a known dialog: `sendRequestInsideDialog` with that dialog. Else
`sendRequestOutsideDialog`. -/
theorem sip_decision_list (env : Env) (s : ClientController) (self : ClientId)
    (msg msgId tx dlg : String) (more : List String)
    (htokens : env.splitTokens (env.splitMsg msg).1 = msgId :: "sip" :: tx :: dlg :: more) :
    (str_find (env.splitMsg msg).2.1 "SIP/" = some 0 → tx.length = 0 →
      processClientMessage env s self msg = Outcome.returned ⟨false,
        createResponseMsg (env.generateUuid 0) msgId false (some "transaction id missing"),
        none, s⟩) ∧
    (str_find (env.splitMsg msg).2.1 "SIP/" = some 0 → tx.length ≠ 0 →
      processClientMessage env s self msg = Outcome.returned ⟨true, "",
        some (Command.respondToSipRequest msgId tx),
        (respondToSipRequest env.engine s self msgId).2⟩) ∧
    (str_find (env.splitMsg msg).2.1 "SIP/" ≠ some 0 → dlg.length > 0 →
      processClientMessage env s self msg = Outcome.returned ⟨true, "",
        some (Command.sendRequestInsideDialog msgId dlg),
        (sendRequestInsideDialog env.engine (env.generateUuid 0) s self msgId
          (env.splitMsg msg).2.1).2.2⟩) ∧
    (str_find (env.splitMsg msg).2.1 "SIP/" ≠ some 0 → dlg.length = 0 → tx.length > 0 →
      str_find (env.splitMsg msg).2.1 "CANCEL" = some 0 →
      processClientMessage env s self msg = Outcome.returned ⟨true, "",
        some (Command.sendCancelRequest msgId tx),
        (sendCancelRequest env.engine s self msgId).2⟩) ∧
    (str_find (env.splitMsg msg).2.1 "SIP/" ≠ some 0 → dlg.length = 0 → tx.length > 0 →
      str_find (env.splitMsg msg).2.1 "CANCEL" ≠ some 0 →
      processClientMessage env s self msg =
        if env.ndebug then Outcome.returned ⟨true, "", none, s⟩ else Outcome.assertionFailed) ∧
    (str_find (env.splitMsg msg).2.1 "SIP/" ≠ some 0 → dlg.length = 0 → tx.length = 0 →
      ∀ callId dlgId, env.getValueForHeader (env.splitMsg msg).2.2.1 "Call-ID" = some callId →
        env.findDialogByCallId callId = some dlgId →
        processClientMessage env s self msg = Outcome.returned ⟨true, "",
          some (Command.sendRequestInsideDialog msgId dlgId),
          (sendRequestInsideDialog env.engine (env.generateUuid 0) s self msgId
            (env.splitMsg msg).2.1).2.2⟩) ∧
    (str_find (env.splitMsg msg).2.1 "SIP/" ≠ some 0 → dlg.length = 0 → tx.length = 0 →
      (∀ callId, env.getValueForHeader (env.splitMsg msg).2.2.1 "Call-ID" = some callId →
        env.findDialogByCallId callId = none) →
      processClientMessage env s self msg = Outcome.returned ⟨true, "",
        some (Command.sendRequestOutsideDialog msgId),
        (sendRequestOutsideDialog env.engine (env.generateUuid 0) s self msgId
          (env.splitMsg msg).2.1).2.2⟩) := by
  rw [processClientMessage_sip env s self msg msgId tx dlg more htokens]
  unfold processSipMessage
  simp only [List.get?]
  refine ⟨?_, ?_, ?_, ?_, ?_, ?_, ?_⟩
  · intro h1 h2
    rw [if_pos h1, if_pos h2]
  · intro h1 h2
    rw [if_pos h1, if_neg h2]
  · intro h1 h2
    rw [if_neg h1, if_pos h2]
  · intro h1 h2 h3 h4
    rw [if_neg h1, if_neg (by omega), if_pos h3, if_pos h4]
  · intro h1 h2 h3 h4
    rw [if_neg h1, if_neg (by omega), if_pos h3, if_neg h4]
  · intro h1 h2 h3 callId dlgId h4 h5
    rw [if_neg h1, if_neg (by omega), if_neg (by omega), h4]
    simp only [h5]
  · intro h1 h2 h3 h4
    rw [if_neg h1, if_neg (by omega), if_neg (by omega)]
    cases h5 : env.getValueForHeader (env.splitMsg msg).2.2.1 "Call-ID" with
    | none => rfl
    | some callId => simp only [h4 callId h5]

/-- Instances of the `sip` branch: an INVITE without transaction id and dialog id
goes out as a request outside a dialog; a CANCEL with transaction id `t1` goes
to `sendCancelRequest`. -/
theorem sip_decision_list_witness :
    processClientMessage sampleEnv (join ClientController.empty 1) 1
        "m1|sip||\r\nINVITE sip:a SIP/2.0"
      = Outcome.returned ⟨true, "", some (Command.sendRequestOutsideDialog "m1"),
          (sendRequestOutsideDialog sampleEnv.engine "uuid0" (join ClientController.empty 1) 1
            "m1" "INVITE sip:a SIP/2.0").2.2⟩ ∧
    processClientMessage sampleEnv (join ClientController.empty 1) 1
        "m1|sip|t1|\r\nCANCEL sip:a SIP/2.0"
      = Outcome.returned ⟨true, "", some (Command.sendCancelRequest "m1" "t1"),
          (sendCancelRequest sampleEnv.engine (join ClientController.empty 1) 1 "m1").2⟩ :=
  ⟨(sip_decision_list sampleEnv (join ClientController.empty 1) 1
      "m1|sip||\r\nINVITE sip:a SIP/2.0" "m1" "" "" [] (by decide)).2.2.2.2.2.2
      (by decide) (by decide) (by decide) (fun _ h => Option.noConfusion h),
    (sip_decision_list sampleEnv (join ClientController.empty 1) 1
      "m1|sip|t1|\r\nCANCEL sip:a SIP/2.0" "m1" "t1" "" [] (by decide)).2.2.2.1
      (by decide) (by decide) (by decide) (by decide)⟩

/-- C29 fails: `m1|route` and `m1|authenticate` have two tokens and
`processClientMessage` reads `tokens[2]`; `m1|sip|t1` fails the assertion on the
number of tokens, and without assertions reads `tokens[3]`; a `proxy` message
with five tokens passes the test `tokens.size() < 4` and reads `tokens[5]`; a
`proxy` message with nine tokens is handed to `proxyRequest` with no
destination and gets no NO answer. Only a single token and a `proxy` message
with fewer than four tokens are answered with NO. -/
theorem short_message_reads_past_tokens :
    processClientMessage sampleEnv (join ClientController.empty 1) 1 "m1|route"
      = Outcome.undefinedBehaviour ∧
    processClientMessage sampleEnv (join ClientController.empty 1) 1 "m1|authenticate"
      = Outcome.undefinedBehaviour ∧
    processClientMessage sampleEnv (join ClientController.empty 1) 1 "m1|sip|t1"
      = Outcome.assertionFailed ∧
    processClientMessage sampleEnvNoAssert (join ClientController.empty 1) 1 "m1|sip|t1"
      = Outcome.undefinedBehaviour ∧
    processClientMessage sampleEnv (join ClientController.empty 1) 1
        "m1|proxy|t1|remainInDialog|fullResponse" = Outcome.undefinedBehaviour ∧
    processClientMessage sampleEnv (join ClientController.empty 1) 1
        "m1|proxy|t1|remainInDialog|fullResponse|followRedirects|simultaneous|5|30"
      = Outcome.returned ⟨true, "",
          some (Command.proxyRequest "m1" "t1" true true true true "5" "30" []),
          { join ClientController.empty 1 with m_mapApiRequests := [("m1", 1)] }⟩ ∧
    processClientMessage sampleEnv (join ClientController.empty 1) 1 "m1"
      = Outcome.returned ⟨false, "uuid0|response|m1|NO|Invalid message format", none,
          join ClientController.empty 1⟩ ∧
    processClientMessage sampleEnv (join ClientController.empty 1) 1 "m1|proxy|t1"
      = Outcome.returned ⟨false,
          "uuid0|response|m1|NO|Invalid proxy request: not enough information provided", none,
          join ClientController.empty 1⟩ := by
  decide

/-- C30 fails: `wants_requests` returns true for every verb, and the route
message `m1|route|BOGUS` is answered with OK and registers client 1 for
`BOGUS`. -/
theorem wants_requests_accepts_every_verb :
    (∀ (s : ClientController) (client : ClientId) (verb : String),
      (wants_requests s client verb).1 = true) ∧
    processClientMessage sampleEnv (join ClientController.empty 1) 1 "m1|route|BOGUS"
      = Outcome.returned ⟨true, "uuid1|response|m1|OK", some (Command.wants_requests "BOGUS"),
          { join ClientController.empty 1 with
            m_request_types := [("BOGUS", 1)]
            m_map_of_request_type_offsets := [("BOGUS", 0)] }⟩ :=
  ⟨fun _ _ _ => rfl, by decide⟩

/-- A `#` with no digit in front of it makes `readMessageLength` throw
`bad_lexical_cast`. -/
theorem readMessageLength_hash (rest : List Char) :
    readMessageLength ('#' :: rest) = LengthResult.badCast := by
  unfold readMessageLength
  rw [readLoop, if_pos rfl]
  simp only
  rw [if_neg (by decide)]
  by_cases h : rest = []
  · rw [if_pos h, if_neg (fun hc => hc rfl)]
    rfl
  · rw [if_neg h]
    rfl

/-- C31 fails: for a `#` in length-prefix position `readMessageLength` throws
`bad_lexical_cast`, which `catch( std::runtime_error& )` of `read_handler` does
not catch. On the read `#` (and on `#payload`, and on `#` behind the frame
`hello`) the exception leaves `read_handler`, client 1 is still joined, and
`threadFunc` catches the exception and ends the event loop: the read of client
2 that completed is never handled. After `abc#`, by contrast, client 1 has left
and the loop goes on to register client 2. -/
theorem missing_length_escapes_read_handler :
    (∀ rest : List Char, readMessageLength ('#' :: rest) = LengthResult.badCast) ∧
    readMessageLength "abc#".data = LengthResult.thrown ∧
    Client.read_handler sampleEnv 1 twoSessions Client.fresh false "#".data
      = ReadResult.escaped [] twoSessions ∧
    Client.read_handler sampleEnv 1 twoSessions Client.fresh false "#payload".data
      = ReadResult.escaped [] twoSessions ∧
    read_handler acceptAll () Client.fresh false "5#hello#".data
      = ReadResult.escaped ["hello"] () ∧
    owned twoSessions 1 = true ∧
    threadFunc sampleEnv twoSessions [(1, Client.fresh), (2, Client.fresh)]
        [(1, "#".data), (2, "15#m1|route|invite".data)]
      = LoopState.ended twoSessions [(1, Client.fresh), (2, Client.fresh)]
          [(2, "15#m1|route|invite".data)] ∧
    threadFunc sampleEnv twoSessions [(1, Client.fresh), (2, Client.fresh)]
        [(1, "abc#".data), (2, "15#m1|route|invite".data)]
      = LoopState.running
          { leave twoSessions 1 with
            m_request_types := [("invite", 2)]
            m_map_of_request_type_offsets := [("invite", 0)] }
          [(2, Client.fresh)] := by
  refine ⟨readMessageLength_hash, ?_, ?_, ?_, ?_, ?_, ?_, ?_⟩ <;> decide

/-- A client that the dialog lookup returns is live, and it is the client the
dialog is bound to, or that client is dead and the dialog has an app-name. -/
theorem findClientForDialog_nolock_found (s s2 : ClientController) (rnd : Nat) (d : String)
    (c : ClientId) (h : findClientForDialog_nolock s rnd d = some (some c, s2)) :
    s2 = s ∧ owned s c = true ∧
    (Map.find s.m_mapDialogs d = some c ∨
      ((∀ w, Map.find s.m_mapDialogs d = some w → owned s w = false) ∧
        ∃ a, Map.find s.m_mapDialogId2Appname d = some a)) := by
  obtain ⟨hs, hown⟩ := findClientForDialog_frame s s2 rnd d (some c) h
  refine ⟨hs, hown c rfl, ?_⟩
  cases hd : Map.find s.m_mapDialogs d with
  | none =>
    exact Or.inr ⟨(fun w hw => by cases hw), failover_needs_app_name s s2 rnd d c hd h⟩
  | some w =>
    by_cases hw : owned s w = true
    · rw [findClientForDialog_nolock_primary s rnd d w hd hw] at h
      cases h
      exact Or.inl rfl
    · have hw2 : owned s w = false := by simpa using hw
      refine Or.inr ⟨(fun w2 hw3 => by cases hw3; exact hw2), ?_⟩
      unfold findClientForDialog_nolock at h
      have hlock : lock s w = none := by simp [lock, hw2]
      simp only [hd, hlock] at h
      cases happ : Map.find s.m_mapDialogId2Appname d with
      | some a => exact ⟨a, rfl⟩
      | none =>
        rw [happ] at h
        simp at h

/-- What a call of `addDialogForTransaction` that returns has done: the first half
left the controller as it was or inserted the dialog with the client of the
transaction, which gives the state `s1`; then
either the lookup on `s1` found no client and the dialog was erased, or it found
a client and the app-name of that client, if it has one, was inserted. -/
theorem addDialogForTransaction_returned (ndebug : Bool)
    (getAppName : ClientId → Option String) (s : ClientController) (rnd : Nat)
    (tx d : String) (s3 : ClientController)
    (h : addDialogForTransaction ndebug getAppName s rnd tx d = Outcome.returned s3) :
    ∃ s1, ((s1 = s ∧ Map.find s.m_mapNetTransactions tx = none) ∨
        ∃ w, (Map.find s.m_mapNetTransactions tx = some w ∨
            (Map.find s.m_mapNetTransactions tx = none ∧ Map.find s.m_mapDialogs d = none ∧
              Map.find s.m_mapAppTransactions tx = some w)) ∧
          s1 = { s with m_mapDialogs := Map.insert s.m_mapDialogs d w }) ∧
      ((findClientForDialog_nolock s1 rnd d = some (none, s1) ∧
          s3 = { s1 with m_mapDialogs := Map.erase s1.m_mapDialogs d }) ∨
        (∃ c, findClientForDialog_nolock s1 rnd d = some (some c, s1) ∧
          ((∃ a, getAppName c = some a ∧ s3 = { s1 with
              m_mapDialogId2Appname := Map.insert s1.m_mapDialogId2Appname d a }) ∨
            (getAppName c = none ∧ s3 = s1)))) := by
  have second : ∀ s1 : ClientController,
      (match findClientForDialog_nolock s1 rnd d with
        | none => Outcome.undefinedBehaviour
        | some (none, s2) =>
          Outcome.returned { s2 with m_mapDialogs := Map.erase s2.m_mapDialogs d }
        | some (some client, s2) =>
          match getAppName client with
          | some strAppName =>
            Outcome.returned { s2 with
              m_mapDialogId2Appname := Map.insert s2.m_mapDialogId2Appname d strAppName }
          | none => Outcome.returned s2) = Outcome.returned s3 →
      ((findClientForDialog_nolock s1 rnd d = some (none, s1) ∧
          s3 = { s1 with m_mapDialogs := Map.erase s1.m_mapDialogs d }) ∨
        (∃ c, findClientForDialog_nolock s1 rnd d = some (some c, s1) ∧
          ((∃ a, getAppName c = some a ∧ s3 = { s1 with
              m_mapDialogId2Appname := Map.insert s1.m_mapDialogId2Appname d a }) ∨
            (getAppName c = none ∧ s3 = s1)))) := by
    intro s1 h1
    split at h1
    · cases h1
    · rename_i s2 hlook
      have hs2 : s2 = s1 := (findClientForDialog_frame s1 s2 rnd d none hlook).1
      subst hs2
      cases h1
      exact Or.inl ⟨hlook, rfl⟩
    · rename_i client s2 hlook
      have hs2 : s2 = s1 := (findClientForDialog_frame s1 s2 rnd d (some client) hlook).1
      subst hs2
      refine Or.inr ⟨client, hlook, ?_⟩
      split at h1
      · rename_i a ha
        cases h1
        exact Or.inl ⟨a, ha, rfl⟩
      · rename_i ha
        cases h1
        exact Or.inr ⟨ha, rfl⟩
  unfold addDialogForTransaction at h
  cases hnet : Map.find s.m_mapNetTransactions tx with
  | some w =>
    simp only [hnet] at h
    exact ⟨_, Or.inr ⟨w, Or.inl rfl, rfl⟩, second _ h⟩
  | none =>
    cases hd : Map.find s.m_mapDialogs d with
    | some p =>
      simp only [hnet, hd] at h
      exact ⟨s, Or.inl ⟨rfl, rfl⟩, second _ h⟩
    | none =>
      cases happ : Map.find s.m_mapAppTransactions tx with
      | some w =>
        simp only [hnet, hd, happ] at h
        exact ⟨_, Or.inr ⟨w, Or.inr ⟨rfl, rfl, rfl⟩, rfl⟩, second _ h⟩
      | none =>
        simp only [hnet, hd, happ] at h
        cases ndebug with
        | false =>
          simp at h
        | true =>
          simp only [if_true] at h
          exact ⟨s, Or.inl ⟨rfl, rfl⟩, second _ h⟩
/-- C32: after every call of `addDialogForTransaction` for dialog `d` that returns,
a client that the dialog table binds `d` to is live, or the dialog-to-app-name
table has an entry for `d`; more than that, `d` is in the dialog table only if
the lookup finds a live client for it, the bound one or a failover client. When
the client that `d` would be bound to is dead and `d` has no app-name entry, the
entry for `d` has been removed. -/
theorem dialog_invariant_after_promotion (ndebug : Bool)
    (getAppName : ClientId → Option String) (s : ClientController) (rnd : Nat)
    (tx d : String) (s3 : ClientController)
    (h : addDialogForTransaction ndebug getAppName s rnd tx d = Outcome.returned s3) :
    (∀ w, Map.find s3.m_mapDialogs d = some w →
      owned s3 w = true ∨ ∃ a, Map.find s3.m_mapDialogId2Appname d = some a) ∧
    (∀ w, Map.find s3.m_mapDialogs d = some w →
      ∃ c, owned s3 c = true ∧ findClientForDialog_nolock s3 rnd d = some (some c, s3)) ∧
    (∀ w, (Map.find s.m_mapDialogs d = some w ∨
        (Map.find s.m_mapDialogs d = none ∧
          (Map.find s.m_mapNetTransactions tx = some w ∨
            (Map.find s.m_mapNetTransactions tx = none ∧
              Map.find s.m_mapAppTransactions tx = some w)))) →
      owned s w = false → Map.find s.m_mapDialogId2Appname d = none →
      Map.find s3.m_mapDialogs d = none) := by
  obtain ⟨s1, hfirst, hsecond⟩ := addDialogForTransaction_returned ndebug getAppName s rnd tx d s3 h
  refine ⟨?_, ?_, ?_⟩
  · intro w hw
    rcases hsecond with ⟨_, hs3⟩ | ⟨c, hlook, hs3⟩
    · rw [hs3] at hw
      rw [show Map.find (Map.erase s1.m_mapDialogs d) d = none from Map.find_erase_self _ _] at hw
      cases hw
    · obtain ⟨_, hown, hwhy⟩ := findClientForDialog_nolock_found s1 s1 rnd d c hlook
      rcases hs3 with ⟨a, _, hs3⟩ | ⟨_, hs3⟩
      · subst hs3
        rcases hwhy with hprim | ⟨_, a0, ha0⟩
        · have hw2 : Map.find s1.m_mapDialogs d = some w := hw
          rw [hprim] at hw2
          cases hw2
          exact Or.inl hown
        · refine Or.inr ⟨a0, ?_⟩
          show Map.find (Map.insert s1.m_mapDialogId2Appname d a) d = some a0
          rw [Map.insert_of_some _ d a a0 ha0]
          exact ha0
      · subst hs3
        rcases hwhy with hprim | ⟨_, a0, ha0⟩
        · rw [hprim] at hw
          cases hw
          exact Or.inl hown
        · exact Or.inr ⟨a0, ha0⟩
  · intro w hw
    rcases hsecond with ⟨_, hs3⟩ | ⟨c, hlook, hs3⟩
    · rw [hs3] at hw
      rw [show Map.find (Map.erase s1.m_mapDialogs d) d = none from Map.find_erase_self _ _] at hw
      cases hw
    · obtain ⟨_, hown, hwhy⟩ := findClientForDialog_nolock_found s1 s1 rnd d c hlook
      rcases hs3 with ⟨a, _, hs3⟩ | ⟨_, hs3⟩
      · rcases hwhy with hprim | ⟨_, a0, ha0⟩
        · subst hs3
          exact ⟨c, hown, findClientForDialog_nolock_primary _ rnd d c hprim hown⟩
        · have hsame : s3 = s1 := by
            rw [hs3, Map.insert_of_some _ d a a0 ha0]
          rw [hsame]
          exact ⟨c, hown, hlook⟩
      · subst hs3
        exact ⟨c, hown, hlook⟩
  · intro w hbind hdead hname
    rcases hsecond with ⟨_, hs3⟩ | ⟨c, hlook, hs3⟩
    · rw [hs3]
      exact Map.find_erase_self _ _
    · exfalso
      obtain ⟨_, hown, hwhy⟩ := findClientForDialog_nolock_found s1 s1 rnd d c hlook
      have hnames : s1.m_mapDialogId2Appname = s.m_mapDialogId2Appname := by
        rcases hfirst with ⟨h1, _⟩ | ⟨_, _, h1⟩ <;> rw [h1]
      have howned : owned s1 c = owned s c := by
        rcases hfirst with ⟨h1, _⟩ | ⟨_, _, h1⟩
        · rw [h1]
        · rw [h1]
          rfl
      rcases hwhy with hprim | ⟨_, a0, ha0⟩
      · have hcw : Map.find s1.m_mapDialogs d = some w := by
          rcases hfirst with ⟨h1, hnet⟩ | ⟨w2, hw2, h1⟩
          · rw [h1]
            rcases hbind with hb | ⟨hfree, hb | ⟨_, hb⟩⟩
            · exact hb
            · rw [hnet] at hb
              cases hb
            · rw [h1, hfree] at hprim
              cases hprim
          · rw [h1]
            show Map.find (Map.insert s.m_mapDialogs d w2) d = some w
            rcases hbind with hb | ⟨hfree, hb⟩
            · rw [Map.insert_of_some _ d w2 w hb]
              exact hb
            · rw [Map.find_insert_of_none _ d w2 hfree]
              rcases hw2 with hn | ⟨hn, _, ha⟩
              · rcases hb with hb | ⟨hb, _⟩
                · rw [hn] at hb
                  exact hb
                · rw [hn] at hb
                  cases hb
              · rcases hb with hb | ⟨_, hb⟩
                · rw [hn] at hb
                  cases hb
                · rw [ha] at hb
                  exact hb
        rw [hprim] at hcw
        cases hcw
        rw [howned, hdead] at hown
        cases hown
      · rw [hnames, hname] at ha0
        cases ha0

/-- Witness for C32: dialog `d1` of app `voicemail` is bound to client 1, which is
dead. With client 2 advertising `voicemail` the call returns with `d1` still
bound and with its app-name entry; without a live service the entry for `d1` is
gone; and a dialog promoted from the transaction `t1` of the dead client 1,
which has no app-name entry, is gone too. -/
theorem dialog_invariant_after_promotion_witness :
    (owned (addNamedService failoverPending 2 "voicemail") 1 = true ∨
      ∃ a, Map.find (addNamedService failoverPending 2 "voicemail").m_mapDialogId2Appname "d1"
        = some a) ∧
    (∃ c, owned (addNamedService failoverPending 2 "voicemail") c = true ∧
      findClientForDialog_nolock (addNamedService failoverPending 2 "voicemail") 0 "d1"
        = some (some c, addNamedService failoverPending 2 "voicemail")) ∧
    addDialogForTransaction false (fun _ => none) failoverPending 0 "t1" "d1"
      = Outcome.returned { failoverPending with m_mapDialogs := [] } ∧
    addDialogForTransaction false (fun _ => none) orphanTransaction 0 "t1" "d1"
      = Outcome.returned orphanTransaction ∧
    Map.find orphanTransaction.m_mapDialogs "d1" = none :=
  ⟨(dialog_invariant_after_promotion false (fun _ => none)
      (addNamedService failoverPending 2 "voicemail") 0 "t1" "d1"
      (addNamedService failoverPending 2 "voicemail") (by decide)).1 1 (by decide),
    (dialog_invariant_after_promotion false (fun _ => none)
      (addNamedService failoverPending 2 "voicemail") 0 "t1" "d1"
      (addNamedService failoverPending 2 "voicemail") (by decide)).2.1 1 (by decide),
    by decide, by decide,
    (dialog_invariant_after_promotion false (fun _ => none) orphanTransaction 0 "t1" "d1"
      orphanTransaction (by decide)).2.2 1 (Or.inr ⟨by decide, Or.inl (by decide)⟩)
      (by decide) (by decide)⟩
/-- C33: when a call of `addDialogForTransaction` for dialog `d` returns with `d`
bound to a live client `c`, then: if `c` has the app-name `a` and `d` had no
app-name entry before, the dialog-to-app-name table maps `d` to `a` afterwards;
if `c` has no app-name, the table is as before. The entries of other dialogs
are never touched. -/
theorem app_name_recorded (ndebug : Bool) (getAppName : ClientId → Option String)
    (s : ClientController) (rnd : Nat) (tx d : String) (s3 : ClientController)
    (h : addDialogForTransaction ndebug getAppName s rnd tx d = Outcome.returned s3) :
    (∀ c a, Map.find s3.m_mapDialogs d = some c → owned s3 c = true →
      getAppName c = some a → Map.find s.m_mapDialogId2Appname d = none →
      Map.find s3.m_mapDialogId2Appname d = some a) ∧
    (∀ c, Map.find s3.m_mapDialogs d = some c → owned s3 c = true →
      getAppName c = none → s3.m_mapDialogId2Appname = s.m_mapDialogId2Appname) ∧
    (∀ d2, d2 ≠ d →
      Map.find s3.m_mapDialogId2Appname d2 = Map.find s.m_mapDialogId2Appname d2) := by
  obtain ⟨s1, hfirst, hsecond⟩ := addDialogForTransaction_returned ndebug getAppName s rnd tx d s3 h
  have hnames : s1.m_mapDialogId2Appname = s.m_mapDialogId2Appname := by
    rcases hfirst with ⟨h1, _⟩ | ⟨_, _, h1⟩ <;> rw [h1]
  have hfound : ∀ c, Map.find s3.m_mapDialogs d = some c → owned s3 c = true →
      (∃ a, getAppName c = some a ∧ s3 = { s1 with
          m_mapDialogId2Appname := Map.insert s1.m_mapDialogId2Appname d a }) ∨
        (getAppName c = none ∧ s3 = s1) := by
    intro c hbound hlive
    rcases hsecond with ⟨_, hs3⟩ | ⟨c2, hlook, hs3⟩
    · rw [hs3] at hbound
      rw [show Map.find (Map.erase s1.m_mapDialogs d) d = none from Map.find_erase_self _ _]
        at hbound
      cases hbound
    · have hbound1 : Map.find s1.m_mapDialogs d = some c := by
        rcases hs3 with ⟨_, _, hs3⟩ | ⟨_, hs3⟩
        · rw [hs3] at hbound
          exact hbound
        · rw [hs3] at hbound
          exact hbound
      have hlive1 : owned s1 c = true := by
        rcases hs3 with ⟨_, _, hs3⟩ | ⟨_, hs3⟩
        · rw [hs3] at hlive
          exact hlive
        · rw [hs3] at hlive
          exact hlive
      rw [findClientForDialog_nolock_primary s1 rnd d c hbound1 hlive1] at hlook
      cases hlook
      exact hs3
  refine ⟨?_, ?_, ?_⟩
  · intro c a hbound hlive happ hname
    rcases hfound c hbound hlive with ⟨a2, ha2, hs3⟩ | ⟨hnone, _⟩
    · rw [happ] at ha2
      cases ha2
      rw [hs3]
      exact Map.find_insert_of_none _ d a (by rw [hnames]; exact hname)
    · rw [happ] at hnone
      cases hnone
  · intro c hbound hlive happ
    rcases hfound c hbound hlive with ⟨a2, ha2, _⟩ | ⟨_, hs3⟩
    · rw [happ] at ha2
      cases ha2
    · rw [hs3]
      exact hnames
  · intro d2 hne
    rcases hsecond with ⟨_, hs3⟩ | ⟨c2, _, hs3⟩
    · rw [hs3, ← hnames]
    · rcases hs3 with ⟨a, _, hs3⟩ | ⟨_, hs3⟩
      · rw [hs3, ← hnames]
        exact Map.find_insert_ne _ d d2 a hne
      · rw [hs3, ← hnames]

/-- Witness for C33 on `promotedDialog`, where client 1 is live and owns the
network transaction `t1`: with the app-name `voicemail` for client 1 the new
dialog `d2` gets the entry `voicemail`; without an app-name the table stays
empty. -/
theorem app_name_recorded_witness :
    addDialogForTransaction false voicemailOfClientOne promotedDialog 0 "t1" "d2"
      = Outcome.returned { promotedDialog with
          m_mapDialogs := [("d1", 2), ("d2", 1)]
          m_mapDialogId2Appname := [("d2", "voicemail")] } ∧
    Map.find ({ promotedDialog with
        m_mapDialogs := [("d1", 2), ("d2", 1)]
        m_mapDialogId2Appname := [("d2", "voicemail")] }).m_mapDialogId2Appname "d2"
      = some "voicemail" ∧
    ({ promotedDialog with m_mapDialogs := [("d1", 2), ("d2", 1)] }).m_mapDialogId2Appname
      = promotedDialog.m_mapDialogId2Appname :=
  ⟨by decide,
    (app_name_recorded false voicemailOfClientOne promotedDialog 0 "t1" "d2"
      { promotedDialog with
        m_mapDialogs := [("d1", 2), ("d2", 1)]
        m_mapDialogId2Appname := [("d2", "voicemail")] } (by decide)).1 1 "voicemail"
      (by decide) (by decide) (by decide) (by decide),
    (app_name_recorded false (fun _ => none) promotedDialog 0 "t1" "d2"
      { promotedDialog with m_mapDialogs := [("d1", 2), ("d2", 1)] } (by decide)).2.1 1
      (by decide) (by decide) rfl⟩

/-- C11, amended: `addDialogForTransaction` looks the transaction up in the net-tx
map, then checks the dialog, then looks in the app-tx map, and inserts into the
dialog map without replacing an entry that the dialog has; it then looks the
dialog up and erases its entry if no live client is found. A dialog bound
before to a live client `p` keeps its binding and resolves to `p`, whatever the
transaction is bound to. A dialog not bound before resolves afterwards to the
live client `c` the net-tx map gives for the transaction (also when the app-tx
map binds the transaction), and, when the net-tx map has no entry, to the live
client the app-tx map gives. A dialog bound before to a departed client `p` is
not rebound to the client of the transaction: with no app-name entry its entry
is erased and it resolves to no client, and in every case it is afterwards
bound to `p` still or not bound. -/
theorem promotion_resolution_order (ndebug : Bool) (getAppName : ClientId → Option String)
    (s : ClientController) (rnd : Nat) (tx d : String) :
    (∀ p, Map.find s.m_mapDialogs d = some p → owned s p = true →
      ∃ s2, addDialogForTransaction ndebug getAppName s rnd tx d = Outcome.returned s2 ∧
        Map.find s2.m_mapDialogs d = some p ∧
        ∀ rnd2, findClientForDialog s2 rnd2 d = some (some p, s2)) ∧
    (∀ c, Map.find s.m_mapDialogs d = none → Map.find s.m_mapNetTransactions tx = some c →
      owned s c = true →
      ∃ s2, addDialogForTransaction ndebug getAppName s rnd tx d = Outcome.returned s2 ∧
        Map.find s2.m_mapDialogs d = some c ∧
        ∀ rnd2, findClientForDialog s2 rnd2 d = some (some c, s2)) ∧
    (∀ c, Map.find s.m_mapDialogs d = none → Map.find s.m_mapNetTransactions tx = none →
      Map.find s.m_mapAppTransactions tx = some c → owned s c = true →
      ∃ s2, addDialogForTransaction ndebug getAppName s rnd tx d = Outcome.returned s2 ∧
        Map.find s2.m_mapDialogs d = some c ∧
        ∀ rnd2, findClientForDialog s2 rnd2 d = some (some c, s2)) ∧
    (∀ p, Map.find s.m_mapDialogs d = some p → owned s p = false →
      Map.find s.m_mapDialogId2Appname d = none →
      addDialogForTransaction ndebug getAppName s rnd tx d
        = Outcome.returned { s with m_mapDialogs := Map.erase s.m_mapDialogs d } ∧
      ∀ rnd2, findClientForDialog { s with m_mapDialogs := Map.erase s.m_mapDialogs d } rnd2 d
        = some (none, { s with m_mapDialogs := Map.erase s.m_mapDialogs d })) ∧
    (∀ p s2, Map.find s.m_mapDialogs d = some p → owned s p = false →
      addDialogForTransaction ndebug getAppName s rnd tx d = Outcome.returned s2 →
      Map.find s2.m_mapDialogs d = none ∨ Map.find s2.m_mapDialogs d = some p) := by
  refine ⟨?_, ?_, ?_, ?_, ?_⟩
  · intro p hbound hlive
    unfold addDialogForTransaction
    cases hnet : Map.find s.m_mapNetTransactions tx with
    | some w =>
      simp only [Map.insert_of_some _ d w p hbound]
      exact promotion_of_live_binding getAppName s rnd d p hbound hlive
    | none =>
      simp only [hbound]
      exact promotion_of_live_binding getAppName s rnd d p hbound hlive
  · intro c hfree hnet hlive
    unfold addDialogForTransaction
    simp only [hnet]
    exact promotion_of_live_binding getAppName _ rnd d c
      (Map.find_insert_of_none _ d c hfree) (by simpa [owned] using hlive)
  · intro c hfree hnet happ hlive
    unfold addDialogForTransaction
    simp only [hnet, hfree, happ]
    exact promotion_of_live_binding getAppName _ rnd d c
      (Map.find_insert_of_none _ d c hfree) (by simpa [owned] using hlive)
  · intro p hbound hdead hname
    have hlock : lock s p = none := by simp [lock, hdead]
    have hlook : findClientForDialog_nolock s rnd d = some (none, s) := by
      unfold findClientForDialog_nolock
      simp only [hbound, hlock, hname]
    refine ⟨?_, fun rnd2 => ?_⟩
    · unfold addDialogForTransaction
      cases hnet : Map.find s.m_mapNetTransactions tx with
      | some w =>
        simp only [Map.insert_of_some _ d w p hbound]
        rw [hlook]
      | none =>
        simp only [hbound]
        rw [hlook]
    · unfold findClientForDialog findClientForDialog_nolock
      simp only [Map.find_erase_self, hname]
  · intro p s2 hbound hdead hret
    obtain ⟨s1, hfirst, hsecond⟩ :=
      addDialogForTransaction_returned ndebug getAppName s rnd tx d s2 hret
    have hdialogs : s1.m_mapDialogs = s.m_mapDialogs := by
      rcases hfirst with ⟨h1, _⟩ | ⟨w, _, h1⟩
      · rw [h1]
      · rw [h1]
        exact Map.insert_of_some _ d w p hbound
    rcases hsecond with ⟨_, hs2⟩ | ⟨c, _, hs2⟩
    · left
      rw [hs2]
      exact Map.find_erase_self _ _
    · right
      rcases hs2 with ⟨a, _, hs2⟩ | ⟨_, hs2⟩
      · rw [hs2]
        show Map.find s1.m_mapDialogs d = some p
        rw [hdialogs]
        exact hbound
      · rw [hs2, hdialogs]
        exact hbound

/-- Witness for C11 (amended) on `promotedDialog`: the bound dialog `d1` keeps
client 2; the new dialog `d2` goes to client 1 through the net-tx entry `t1` and
the new dialog `d3` through the app-tx entry `t2`. On `staleBinding`, where `d1`
is bound to the departed client 3, the entry of `d1` is erased although `t1`
belongs to the live client 1. -/
theorem promotion_resolution_order_witness :
    (∃ s2, addDialogForTransaction false (fun _ => none) promotedDialog 0 "t1" "d1"
        = Outcome.returned s2 ∧ Map.find s2.m_mapDialogs "d1" = some 2 ∧
        ∀ rnd2, findClientForDialog s2 rnd2 "d1" = some (some 2, s2)) ∧
    (∃ s2, addDialogForTransaction false (fun _ => none) promotedDialog 0 "t1" "d2"
        = Outcome.returned s2 ∧ Map.find s2.m_mapDialogs "d2" = some 1 ∧
        ∀ rnd2, findClientForDialog s2 rnd2 "d2" = some (some 1, s2)) ∧
    (∃ s2, addDialogForTransaction false (fun _ => none) promotedDialog 0 "t2" "d3"
        = Outcome.returned s2 ∧ Map.find s2.m_mapDialogs "d3" = some 1 ∧
        ∀ rnd2, findClientForDialog s2 rnd2 "d3" = some (some 1, s2)) ∧
    (addDialogForTransaction false (fun _ => none) staleBinding 0 "t1" "d1"
        = Outcome.returned { staleBinding with
            m_mapDialogs := Map.erase staleBinding.m_mapDialogs "d1" } ∧
      ∀ rnd2, findClientForDialog
          { staleBinding with m_mapDialogs := Map.erase staleBinding.m_mapDialogs "d1" } rnd2 "d1"
        = some (none,
            { staleBinding with m_mapDialogs := Map.erase staleBinding.m_mapDialogs "d1" })) ∧
    (Map.find ({ staleBinding with m_mapDialogs := [] } : ClientController).m_mapDialogs "d1"
        = none ∨
      Map.find ({ staleBinding with m_mapDialogs := [] } : ClientController).m_mapDialogs "d1"
        = some 3) :=
  ⟨(promotion_resolution_order false (fun _ => none) promotedDialog 0 "t1" "d1").1 2
      (by decide) (by decide),
    (promotion_resolution_order false (fun _ => none) promotedDialog 0 "t1" "d2").2.1 1
      (by decide) (by decide) (by decide),
    (promotion_resolution_order false (fun _ => none) promotedDialog 0 "t2" "d3").2.2.1 1
      (by decide) (by decide) (by decide) (by decide),
    (promotion_resolution_order false (fun _ => none) staleBinding 0 "t1" "d1").2.2.2.1 3
      (by decide) (by decide) (by decide),
    (promotion_resolution_order false (fun _ => none) staleBinding 0 "t1" "d1").2.2.2.2 3
      { staleBinding with m_mapDialogs := [] } (by decide) (by decide) (by decide)⟩

/-! ## A buffer that cannot hold the frame -/

end drachtio
